import Mathlib

/-!
Verification of the DID-Exchange protocol core (package `didexchange`).

The Go source is shallowly embedded:
  * pure functions become Lean functions;
  * the collaborator bundle (`context`) becomes a structure of function
    fields (KMS, crypto, VDR registry, mediator, connection recorder,
    dispatcher helpers), so that the embedded source functions are
    parameterised exactly over the interfaces the Go code consumes;
  * Go `error` values become an inductive `DexErr` that keeps the
    `fmt.Errorf("...: %w", err)` wrapping structure, so that
    `errors.Is` against the sentinel errors (`errVerKeyNotFound`,
    `storage.ErrDataNotFound`) can be modelled faithfully;
  * a Go nil-pointer dereference (a runtime panic) is modelled by the
    `none` value of an outer `Option` layer on the functions that can
    reach one;
  * Go byte slices become `List Nat` with values `< 256` where it
    matters; Go strings become Lean `String`, converted to bytes by
    taking character code points (exact on ASCII and on every string
    the claims exercise).
-/

namespace DidExchange

/-- Go error values. `wrap s e` is `fmt.Errorf(s ++ "%w", e)`; the two
sentinel constructors model `errVerKeyNotFound` (didexchange) and
`storage.ErrDataNotFound` (spi/storage), which the source compares
against with `errors.Is`. -/
inductive DexErr where
  | verKeyNotFound : DexErr
  | dataNotFound : DexErr
  | msg (s : String) : DexErr
  | wrap (s : String) (e : DexErr) : DexErr
deriving DecidableEq

/-- Model of `errors.Is(err, target)` for the two sentinel targets used
by the source: it walks the `%w` wrapping chain and compares against
the sentinel at the bottom. -/
def errorIs : DexErr → DexErr → Bool
  | .wrap _ e, t => errorIs e t
  | .verKeyNotFound, .verKeyNotFound => true
  | .dataNotFound, .dataNotFound => true
  | _, _ => false

/-- Model of `err.Error()`: wrapping prepends its message text. The
sentinel texts are the literals from the Go sources that declare them. -/
def errMessage : DexErr → String
  | .verKeyNotFound => "verkey not found"
  | .dataNotFound => "data not found"
  | .msg s => s
  | .wrap s e => s ++ errMessage e

/-- State name constant `stateNameNoop`. -/
def stateNameNoop : String := "noop"

/-- State name constant `stateNameNull`. -/
def stateNameNull : String := "null"

/-- State name constant `StateIDInvited`. -/
def StateIDInvited : String := "invited"

/-- State name constant `StateIDRequested`. -/
def StateIDRequested : String := "requested"

/-- State name constant `StateIDResponded`. -/
def StateIDResponded : String := "responded"

/-- State name constant `StateIDCompleted`. -/
def StateIDCompleted : String := "completed"

/-- State name constant `StateIDAbandoned`. -/
def StateIDAbandoned : String := "abandoned"

/-- Modelled from the spec: the wire message-type URI constants
(`InvitationMsgType`, `RequestMsgType`, `ResponseMsgType`,
`AckMsgType`, `CompleteMsgType`, `oobMsgType`) are declared outside
the provided sources.  The spec's scenario "State rejects wrong type"
fixes the printed form of the Response type as `response`
(error `illegal msg type response for state invited`); the remaining
constants are modelled as distinct literals in the same style. -/
def InvitationMsgType : String := "invitation"

/-- Modelled from the spec: see `InvitationMsgType`. -/
def RequestMsgType : String := "request"

/-- Modelled from the spec: see `InvitationMsgType`. -/
def ResponseMsgType : String := "response"

/-- Modelled from the spec: see `InvitationMsgType`. -/
def AckMsgType : String := "ack"

/-- Modelled from the spec: see `InvitationMsgType`. -/
def CompleteMsgType : String := "complete"

/-- Modelled from the spec: see `InvitationMsgType`. -/
def oobMsgType : String := "oob-invitation"

/-- Constant `didCommServiceType`. -/
def didCommServiceType : String := "did-communication"

/-- Constant `timestamplen`. -/
def timestamplen : Nat := 8

/-- Constant `ed25519VerificationKey2018`. -/
def ed25519VerificationKey2018 : String := "Ed25519VerificationKey2018"

/-- Constant `bls12381G2Key2020`. -/
def bls12381G2Key2020 : String := "Bls12381G2Key2020"

/-- Constant `jsonWebKey2020`. -/
def jsonWebKey2020 : String := "JsonWebKey2020"

/-- Constant `didMethod`. -/
def didMethod : String := "peer"

/-- The seven state objects of the protocol (`noOp`, `null`, `invited`,
`requested`, `responded`, `completed`, `abandoned`), one constructor
per Go struct implementing the `state` interface. -/
inductive State where
  | noOp : State
  | null : State
  | invited : State
  | requested : State
  | responded : State
  | completed : State
  | abandoned : State
deriving DecidableEq

/-- The `Name()` method of each state object. -/
def State.name : State → String
  | .noOp => stateNameNoop
  | .null => stateNameNull
  | .invited => StateIDInvited
  | .requested => StateIDRequested
  | .responded => StateIDResponded
  | .completed => StateIDCompleted
  | .abandoned => StateIDAbandoned

/-- The `CanTransitionTo` method of each state object, translated from
the per-state bodies (each compares `next.Name()` against the allowed
state-name constants; `noOp`, `completed` and `abandoned` return
`false` unconditionally). -/
def State.canTransitionTo : State → State → Bool
  | .noOp, _ => false
  | .null, next => StateIDInvited == next.name || StateIDRequested == next.name
  | .invited, next => StateIDRequested == next.name
  | .requested, next => StateIDResponded == next.name
  | .responded, next => StateIDCompleted == next.name
  | .completed, _ => false
  | .abandoned, _ => false

/-- Function `stateFromName`. -/
def stateFromName (name : String) : Except DexErr State :=
  if name = stateNameNoop then .ok .noOp
  else if name = stateNameNull then .ok .null
  else if name = StateIDInvited then .ok .invited
  else if name = StateIDRequested then .ok .requested
  else if name = StateIDResponded then .ok .responded
  else if name = StateIDCompleted then .ok .completed
  else if name = StateIDAbandoned then .ok .abandoned
  else .error (.msg ("invalid state name " ++ name))

/-- Function `stateFromMsgType`. -/
def stateFromMsgType (msgType : String) : Except DexErr State :=
  if msgType = InvitationMsgType ∨ msgType = oobMsgType then .ok .invited
  else if msgType = RequestMsgType then .ok .requested
  else if msgType = ResponseMsgType then .ok .responded
  else if msgType = AckMsgType ∨ msgType = CompleteMsgType then .ok .completed
  else .error (.msg ("unrecognized msgType: " ++ msgType))

/-! Bytes and strings.  A Go `string` is modelled as a Lean `String`;
`[]byte(s)` is modelled by the list of character code points (exact on
ASCII, which covers every literal the source manipulates), and the
reverse conversion rebuilds the string from code points. -/

/-- Model of the Go conversion `[]byte(s)`: the code points of `s`. -/
def strBytes (s : String) : List Nat := s.data.map Char.toNat

/-- Model of the Go conversion `string(b)`: the string with the given
code points. -/
def bytesStr (l : List Nat) : String := ⟨l.map Char.ofNat⟩

theorem char_toNat_ofNat {b : Nat} (h : b < 55296) : (Char.ofNat b).toNat = b := by
  rw [Char.ofNat, dif_pos (Or.inl h)]
  rfl

theorem bytesStr_strBytes (s : String) : bytesStr (strBytes s) = s := by
  cases s with
  | mk data =>
    simp [bytesStr, strBytes, List.map_map, Function.comp_def]

theorem strBytes_bytesStr (l : List Nat) (h : ∀ b ∈ l, b < 55296) :
    strBytes (bytesStr l) = l := by
  induction l with
  | nil => rfl
  | cons b t ih =>
    have hb : b < 55296 := h b (by simp)
    have ht : ∀ x ∈ t, x < 55296 := fun x hx => h x (by simp [hx])
    simp only [bytesStr, strBytes, List.map_cons] at *
    exact List.cons_eq_cons.mpr ⟨char_toNat_ofNat hb, ih ht⟩

/-! Base64url codec: model of Go's `base64.URLEncoding` (URL-safe
alphabet, `=` padding, and — as in Go's non-strict decoder — no check
of the unused trailing bits of the final group). -/

/-- The URL-safe base64 alphabet as ASCII codes: `A`–`Z`, `a`–`z`,
`0`–`9`, `-`, `_`. -/
def b64UrlAlpha (n : Nat) : Nat :=
  if n < 26 then 65 + n
  else if n < 52 then 97 + (n - 26)
  else if n < 62 then 48 + (n - 52)
  else if n = 62 then 45
  else 95

/-- Inverse alphabet lookup; `none` on a code outside the alphabet
(`=`, code 61, is handled by the caller). -/
def b64UrlVal (c : Nat) : Option Nat :=
  if 65 ≤ c ∧ c ≤ 90 then some (c - 65)
  else if 97 ≤ c ∧ c ≤ 122 then some (c - 97 + 26)
  else if 48 ≤ c ∧ c ≤ 57 then some (c - 48 + 52)
  else if c = 45 then some 62
  else if c = 95 then some 63
  else none

/-- Model of `base64.URLEncoding.EncodeToString` (as bytes): groups of
three bytes become four alphabet codes; a final group of one or two
bytes is padded with `=` (code 61). -/
def b64Encode : List Nat → List Nat
  | [] => []
  | [b0] => [b64UrlAlpha (b0 / 4), b64UrlAlpha (b0 % 4 * 16), 61, 61]
  | [b0, b1] =>
      [b64UrlAlpha (b0 / 4), b64UrlAlpha (b0 % 4 * 16 + b1 / 16),
       b64UrlAlpha (b1 % 16 * 4), 61]
  | b0 :: b1 :: b2 :: rest =>
      b64UrlAlpha (b0 / 4) :: b64UrlAlpha (b0 % 4 * 16 + b1 / 16) ::
      b64UrlAlpha (b1 % 16 * 4 + b2 / 64) :: b64UrlAlpha (b2 % 64) ::
      b64Encode rest

/-- Model of `base64.URLEncoding.DecodeString`: input length must be a
multiple of four, `=` padding is legal only at the very end, and any
code outside the alphabet fails. -/
def b64Decode : List Nat → Option (List Nat)
  | [] => some []
  | c0 :: c1 :: c2 :: c3 :: rest =>
      if c2 = 61 ∧ c3 = 61 ∧ rest = [] then do
        let v0 ← b64UrlVal c0
        let v1 ← b64UrlVal c1
        some [v0 * 4 + v1 / 16]
      else if c3 = 61 ∧ rest = [] then do
        let v0 ← b64UrlVal c0
        let v1 ← b64UrlVal c1
        let v2 ← b64UrlVal c2
        some [v0 * 4 + v1 / 16, v1 % 16 * 16 + v2 / 4]
      else do
        let v0 ← b64UrlVal c0
        let v1 ← b64UrlVal c1
        let v2 ← b64UrlVal c2
        let v3 ← b64UrlVal c3
        let tail ← b64Decode rest
        some ((v0 * 4 + v1 / 16) :: (v1 % 16 * 16 + v2 / 4) ::
              (v2 % 4 * 64 + v3) :: tail)
  | _ => none

theorem b64UrlVal_alpha : ∀ n, n < 64 → b64UrlVal (b64UrlAlpha n) = some n := by
  decide

theorem b64UrlAlpha_lt (n : Nat) : b64UrlAlpha n < 128 := by
  unfold b64UrlAlpha
  split <;> try omega
  split <;> try omega
  split <;> try omega
  split <;> omega

theorem b64UrlAlpha_ne_61 (n : Nat) : b64UrlAlpha n ≠ 61 := by
  unfold b64UrlAlpha
  split <;> try omega
  split <;> try omega
  split <;> try omega
  split <;> omega

theorem b64Encode_lt : ∀ l, ∀ c ∈ b64Encode l, c < 128 := by
  intro l
  induction l using b64Encode.induct with
  | case1 => intro c hc; simp [b64Encode] at hc
  | case2 b0 =>
    intro c hc
    simp only [b64Encode, List.mem_cons, List.not_mem_nil, or_false] at hc
    rcases hc with rfl | rfl | rfl | rfl
    · exact b64UrlAlpha_lt _
    · exact b64UrlAlpha_lt _
    · omega
    · omega
  | case3 b0 b1 =>
    intro c hc
    simp only [b64Encode, List.mem_cons, List.not_mem_nil, or_false] at hc
    rcases hc with rfl | rfl | rfl | rfl
    · exact b64UrlAlpha_lt _
    · exact b64UrlAlpha_lt _
    · exact b64UrlAlpha_lt _
    · omega
  | case4 b0 b1 b2 rest ih =>
    intro c hc
    simp only [b64Encode, List.mem_cons] at hc
    rcases hc with rfl | rfl | rfl | rfl | hmem
    · exact b64UrlAlpha_lt _
    · exact b64UrlAlpha_lt _
    · exact b64UrlAlpha_lt _
    · exact b64UrlAlpha_lt _
    · exact ih c hmem

theorem b64Decode_encode (bs : List Nat) (h : ∀ b ∈ bs, b < 256) :
    b64Decode (b64Encode bs) = some bs := by
  induction bs using b64Encode.induct with
  | case1 => rfl
  | case2 b0 =>
    have hb0 : b0 < 256 := h b0 (by simp)
    simp only [b64Encode, b64Decode]
    rw [if_pos (by simp)]
    rw [b64UrlVal_alpha _ (by omega), b64UrlVal_alpha _ (by omega)]
    simp only [Option.bind_eq_bind, Option.some_bind, Option.some.injEq,
      List.cons.injEq, and_true]
    omega
  | case3 b0 b1 =>
    have hb0 : b0 < 256 := h b0 (by simp)
    have hb1 : b1 < 256 := h b1 (by simp)
    simp only [b64Encode, b64Decode]
    rw [if_neg (by simp [b64UrlAlpha_ne_61]), if_pos (by simp)]
    rw [b64UrlVal_alpha _ (by omega), b64UrlVal_alpha _ (by omega),
        b64UrlVal_alpha _ (by omega)]
    simp only [Option.bind_eq_bind, Option.some_bind, Option.some.injEq,
      List.cons.injEq, and_true]
    omega
  | case4 b0 b1 b2 rest ih =>
    have hb0 : b0 < 256 := h b0 (by simp)
    have hb1 : b1 < 256 := h b1 (by simp)
    have hb2 : b2 < 256 := h b2 (by simp)
    have hrest : ∀ b ∈ rest, b < 256 := fun b hb => h b (by simp [hb])
    simp only [b64Encode, b64Decode]
    rw [if_neg (by rintro ⟨-, h61, -⟩; exact b64UrlAlpha_ne_61 _ h61),
        if_neg (by rintro ⟨h61, -⟩; exact b64UrlAlpha_ne_61 _ h61)]
    rw [b64UrlVal_alpha _ (by omega), b64UrlVal_alpha _ (by omega),
        b64UrlVal_alpha _ (by omega), b64UrlVal_alpha _ (by omega)]
    rw [ih hrest]
    simp only [Option.bind_eq_bind, Option.some_bind, Option.some.injEq,
      List.cons.injEq, and_true]
    omega

/-! Big-endian byte encoding: model of `binary.BigEndian.PutUint64`
(together with the Go cast `uint64(now)`, which keeps the value modulo
2^64 — the recursion below truncates high bits the same way). -/

/-- The `w`-byte big-endian encoding of `v % 256^w`. -/
def beBytes : Nat → Nat → List Nat
  | 0, _ => []
  | w + 1, v => beBytes w (v / 256) ++ [v % 256]

theorem beBytes_length (w v : Nat) : (beBytes w v).length = w := by
  induction w generalizing v with
  | zero => rfl
  | succ w ih => simp [beBytes, ih]

theorem beBytes_lt (w v : Nat) : ∀ b ∈ beBytes w v, b < 256 := by
  induction w generalizing v with
  | zero => simp [beBytes]
  | succ w ih =>
    intro b hb
    simp only [beBytes, List.mem_append, List.mem_singleton] at hb
    rcases hb with hb | rfl
    · exact ih _ b hb
    · omega

/-! Canonical JSON codec.  Modelled from the spec: the `Connection`
structure (`{DID, DIDDoc?}`, Go JSON tags `DID,omitempty` and
`DIDDoc,omitempty`) and the DID-document type behind `DIDDoc` are
declared outside the provided sources, so they are modelled here from
the spec's data model, the DID document being reduced to the fields
the core reads and writes (`ID`, `Service`, `VerificationMethod`,
`Authentication`).  `json.Marshal` / `json.Unmarshal` are modelled by
a canonical printer and a parser for exactly the canonical form the
printer emits (Go's marshaller is deterministic, emitting struct
fields in declaration order, so the printed form is canonical; byte
strings are printed as escaped code-point strings). -/

/-- JSON string-body escaping: `"` (34) and `\` (92) get a `\`
before them; every other code is copied. -/
def jEsc : List Nat → List Nat
  | [] => []
  | b :: s => (if b = 34 ∨ b = 92 then [92, b] else [b]) ++ jEsc s

/-- Parser for a JSON string body up to its closing quote: returns the
unescaped codes and the input after the closing quote. -/
def parseJStr : List Nat → Option (List Nat × List Nat)
  | [] => none
  | b :: rest =>
    if b = 34 then some ([], rest)
    else if b = 92 then
      match rest with
      | [] => none
      | e :: rest2 =>
        if e = 34 ∨ e = 92 then
          (parseJStr rest2).map (fun p => (e :: p.1, p.2))
        else none
    else (parseJStr rest).map (fun p => (b :: p.1, p.2))

theorem parseJStr_jEsc (s rest : List Nat) :
    parseJStr (jEsc s ++ (34 :: rest)) = some (s, rest) := by
  induction s with
  | nil =>
    rw [jEsc, List.nil_append, parseJStr.eq_def]
    simp
  | cons b t ih =>
    by_cases hb : b = 34 ∨ b = 92
    · simp only [jEsc, if_pos hb, List.cons_append, List.nil_append]
      rw [parseJStr.eq_def]
      simp only [List.cons_append]
      norm_num
      exact ⟨hb, ih⟩
    · push_neg at hb
      simp only [jEsc, if_neg (by tauto), List.cons_append, List.nil_append]
      rw [parseJStr.eq_def]
      simp [hb.1, hb.2, ih]

theorem parseJStr_length_fuel :
    ∀ n l s r, l.length ≤ n → parseJStr l = some (s, r) → r.length < l.length := by
  intro n
  induction n with
  | zero =>
    intro l s r hle h
    cases l with
    | nil => rw [parseJStr.eq_def] at h; simp at h
    | cons b rest => simp at hle
  | succ n ih =>
    intro l s r hle h
    cases l with
    | nil => rw [parseJStr.eq_def] at h; simp at h
    | cons b rest =>
      rw [parseJStr.eq_def] at h
      simp only at h
      by_cases h34 : b = 34
      · rw [if_pos h34] at h
        simp only [Option.some.injEq, Prod.mk.injEq] at h
        simp [← h.2]
      · rw [if_neg h34] at h
        by_cases h92 : b = 92
        · rw [if_pos h92] at h
          cases rest with
          | nil => simp at h
          | cons e rest2 =>
            replace h : (if e = 34 ∨ e = 92 then
                Option.map (fun p => (e :: p.1, p.2)) (parseJStr rest2)
              else none) = some (s, r) := h
            by_cases he : e = 34 ∨ e = 92
            · rw [if_pos he] at h
              simp only [Option.map_eq_some'] at h
              obtain ⟨⟨s1, r1⟩, hp, heq⟩ := h
              have hlen : rest2.length ≤ n := by
                simp only [List.length_cons] at hle; omega
              have hr1 := ih rest2 s1 r1 hlen hp
              have hr : r = r1 := by
                have := heq.symm
                simp only [Prod.mk.injEq] at this
                exact this.2
              subst hr
              simp only [List.length_cons]
              omega
            · rw [if_neg he] at h; simp at h
        · rw [if_neg h92] at h
          simp only [Option.map_eq_some'] at h
          obtain ⟨⟨s1, r1⟩, hp, heq⟩ := h
          have hlen : rest.length ≤ n := by
            simp only [List.length_cons] at hle; omega
          have hr1 := ih rest s1 r1 hlen hp
          have hr : r = r1 := by
            have := heq.symm
            simp only [Prod.mk.injEq] at this
            exact this.2
          subst hr
          simp only [List.length_cons]
          omega

theorem parseJStr_length {l s r : List Nat} (h : parseJStr l = some (s, r)) :
    r.length < l.length :=
  parseJStr_length_fuel l.length l s r le_rfl h

/-- Prefix stripper: `stripPre p l` returns `l` minus the prefix `p`,
or `none` when `p` is not a prefix of `l`. -/
def stripPre : List Nat → List Nat → Option (List Nat)
  | [], l => some l
  | _ :: _, [] => none
  | p :: ps, b :: ls => if p = b then stripPre ps ls else none

theorem stripPre_append (p l : List Nat) : stripPre p (p ++ l) = some l := by
  induction p with
  | nil => rfl
  | cons a t ih => simp [stripPre, ih]

theorem stripPre_length : ∀ p l r, stripPre p l = some r → r.length + p.length = l.length := by
  intro p
  induction p with
  | nil => intro l r h; simp [stripPre] at h; simp [h]
  | cons a t ih =>
    intro l r h
    cases l with
    | nil => simp [stripPre] at h
    | cons b ls =>
      rw [stripPre] at h
      split at h
      · have := ih ls r h
        simp only [List.length_cons]
        omega
      · exact absurd h (by simp)

/-- Model of `did.VerificationMethod`, reduced to the fields the core
writes (`ID`, `Type`, `Value`). -/
structure VerMethod where
  id : String
  type : String
  value : List Nat
deriving DecidableEq

/-- Model of `did.Service`, reduced to the fields the core reads and
writes (`ID`, `Type`, `ServiceEndpoint`, `RecipientKeys`,
`RoutingKeys`, `Accept`). -/
structure DidService where
  id : String
  type : String
  serviceEndpoint : String
  recipientKeys : List String
  routingKeys : List String
  accept : List String
deriving DecidableEq

instance : Inhabited DidService := ⟨⟨"", "", "", [], [], []⟩⟩

/-- Model of `did.Doc`, reduced to the fields the core reads and
writes (`ID`, `Service`, `VerificationMethod`, `Authentication`;
an authentication entry is modelled by its verification method). -/
structure DocM where
  id : String
  service : List DidService
  verificationMethod : List VerMethod
  authentication : List VerMethod
deriving DecidableEq

/-- Modelled from the spec: the `Connection` structure
`{DID, DIDDoc?}` with JSON tags `DID,omitempty` / `DIDDoc,omitempty`
(declared outside the provided sources). -/
structure Connection where
  DID : String
  DIDDoc : Option DocM
deriving DecidableEq

/-- Token for the literal `"DID":` (ASCII codes). -/
def fDID : List Nat := [34, 68, 73, 68, 34, 58]

/-- Token for the literal `"DIDDoc":` (ASCII codes). -/
def fDIDDoc : List Nat := [34, 68, 73, 68, 68, 111, 99, 34, 58]

/-- Token for the literal `,"DIDDoc":` (ASCII codes). -/
def fDIDDocC : List Nat := [44, 34, 68, 73, 68, 68, 111, 99, 34, 58]

/-- Token for the literal `"id":` (ASCII codes). -/
def fId : List Nat := [34, 105, 100, 34, 58]

/-- Token for the literal `,"type":` (ASCII codes). -/
def fTypeC : List Nat := [44, 34, 116, 121, 112, 101, 34, 58]

/-- Token for the literal `,"serviceEndpoint":` (ASCII codes). -/
def fServiceEndpointC : List Nat :=
  [44, 34, 115, 101, 114, 118, 105, 99, 101, 69, 110, 100, 112, 111, 105, 110, 116, 34, 58]

/-- Token for the literal `,"recipientKeys":` (ASCII codes). -/
def fRecipientKeysC : List Nat :=
  [44, 34, 114, 101, 99, 105, 112, 105, 101, 110, 116, 75, 101, 121, 115, 34, 58]

/-- Token for the literal `,"routingKeys":` (ASCII codes). -/
def fRoutingKeysC : List Nat :=
  [44, 34, 114, 111, 117, 116, 105, 110, 103, 75, 101, 121, 115, 34, 58]

/-- Token for the literal `,"accept":` (ASCII codes). -/
def fAcceptC : List Nat := [44, 34, 97, 99, 99, 101, 112, 116, 34, 58]

/-- Token for the literal `,"service":` (ASCII codes). -/
def fServiceC : List Nat := [44, 34, 115, 101, 114, 118, 105, 99, 101, 34, 58]

/-- Token for the literal `,"verificationMethod":` (ASCII codes). -/
def fVerificationMethodC : List Nat :=
  [44, 34, 118, 101, 114, 105, 102, 105, 99, 97, 116, 105, 111, 110, 77, 101, 116, 104, 111, 100, 34, 58]

/-- Token for the literal `,"authentication":` (ASCII codes). -/
def fAuthenticationC : List Nat :=
  [44, 34, 97, 117, 116, 104, 101, 110, 116, 105, 99, 97, 116, 105, 111, 110, 34, 58]

/-- Token for the literal `,"value":` (ASCII codes). -/
def fValueC : List Nat := [44, 34, 118, 97, 108, 117, 101, 34, 58]

/-- Token for an opening brace followed by `"id":`. -/
def oId : List Nat := 123 :: fId

/-- Token for an opening brace followed by `"DID":`. -/
def oDID : List Nat := 123 :: fDID

/-- Token for an opening brace followed by `"DIDDoc":`. -/
def oDIDDoc : List Nat := 123 :: fDIDDoc

/-- JSON string literal: quote, escaped body, quote. -/
def jsonStr (s : String) : List Nat := 34 :: (jEsc (strBytes s) ++ [34])

/-- JSON printing of a byte string as an escaped code string. -/
def jsonBytes (v : List Nat) : List Nat := 34 :: (jEsc v ++ [34])

/-- Comma-separated JSON string elements (no surrounding brackets). -/
def jsonStrsBody : List String → List Nat
  | [] => []
  | s :: rest =>
      jsonStr s ++ ((if rest.isEmpty then [] else [44]) ++ jsonStrsBody rest)

/-- JSON array of strings. -/
def jsonStrList (xs : List String) : List Nat :=
  match xs with
  | [] => [91, 93]
  | _ => 91 :: (jsonStrsBody xs ++ [93])

/-- Parser for a JSON string literal. -/
def parseStr (l : List Nat) : Option (String × List Nat) :=
  match l with
  | 34 :: r => (parseJStr r).map (fun p => (bytesStr p.1, p.2))
  | _ => none

/-- Parser for a JSON byte-string literal. -/
def parseBytes (l : List Nat) : Option (List Nat × List Nat) :=
  match l with
  | 34 :: r => parseJStr r
  | _ => none

theorem parseStr_length : ∀ {l : List Nat} {s r}, parseStr l = some (s, r) → r.length < l.length := by
  intro l s r h
  rw [parseStr.eq_def] at h
  split at h
  · simp only [Option.map_eq_some'] at h
    obtain ⟨⟨s1, r1⟩, hp, heq⟩ := h
    obtain ⟨-, hr⟩ := Prod.mk.inj heq
    subst hr
    have := parseJStr_length hp
    simp only [List.length_cons]
    omega
  · exact absurd h (by simp)

theorem parseBytes_length : ∀ {l : List Nat} {s r}, parseBytes l = some (s, r) → r.length < l.length := by
  intro l s r h
  rw [parseBytes.eq_def] at h
  split at h
  · have := parseJStr_length h
    simp only [List.length_cons]
    omega
  · exact absurd h (by simp)

theorem parseStr_jsonStr (s : String) (rest : List Nat) :
    parseStr (jsonStr s ++ rest) = some (s, rest) := by
  have hshape : jsonStr s ++ rest = 34 :: (jEsc (strBytes s) ++ (34 :: rest)) := by
    simp [jsonStr, List.append_assoc]
  rw [hshape, parseStr, parseJStr_jEsc]
  simp [bytesStr_strBytes]

theorem parseBytes_jsonBytes (v : List Nat) (rest : List Nat) :
    parseBytes (jsonBytes v ++ rest) = some (v, rest) := by
  have hshape : jsonBytes v ++ rest = 34 :: (jEsc v ++ (34 :: rest)) := by
    simp [jsonBytes, List.append_assoc]
  rw [hshape, parseBytes, parseJStr_jEsc]

/-- Parser for the tail of a non-empty JSON string array (elements and
the closing bracket), with explicit recursion fuel. -/
def parseStrsBodyF : Nat → List Nat → Option (List String × List Nat)
  | 0, _ => none
  | fuel + 1, l =>
    match parseStr l with
    | none => none
    | some (s, r) =>
      match r with
      | [] => none
      | b :: r2 =>
        if b = 93 then some ([s], r2)
        else if b = 44 then
          match parseStrsBodyF fuel r2 with
          | none => none
          | some (ss, rest) => some (s :: ss, rest)
        else none

/-- Parser for the tail of a non-empty JSON string array; the input
length bounds the number of elements, so it suffices as fuel. -/
def parseStrsBody (l : List Nat) : Option (List String × List Nat) :=
  parseStrsBodyF l.length l

/-- Parser for a JSON array of strings. -/
def parseStrs (l : List Nat) : Option (List String × List Nat) :=
  match l with
  | 91 :: 93 :: rest => some ([], rest)
  | 91 :: r => parseStrsBody r
  | _ => none

theorem jsonStr_length_ge (s : String) : 2 ≤ (jsonStr s).length := by
  simp [jsonStr]

theorem jsonStrsBody_length_ge (x : String) (xs : List String) :
    xs.length + 2 ≤ (jsonStrsBody (x :: xs)).length := by
  induction xs generalizing x with
  | nil =>
    have := jsonStr_length_ge x
    simpa [jsonStrsBody] using this
  | cons y ys ih =>
    have h1 := jsonStr_length_ge x
    have h2 := ih y
    simp only [jsonStrsBody, List.length_append, List.length_cons] at h2 ⊢
    omega

theorem parseStrsBodyF_jsonStrsBody (xs : List String) :
    ∀ (fuel : Nat) (x : String) (rest : List Nat), xs.length + 1 ≤ fuel →
      parseStrsBodyF fuel (jsonStrsBody (x :: xs) ++ (93 :: rest)) = some (x :: xs, rest) := by
  induction xs with
  | nil =>
    intro fuel x rest hfuel
    cases fuel with
    | zero => simp at hfuel
    | succ n =>
      have hshape : jsonStrsBody [x] ++ (93 :: rest) = jsonStr x ++ (93 :: rest) := by
        simp [jsonStrsBody]
      rw [hshape, parseStrsBodyF, parseStr_jsonStr]
      rfl
  | cons y ys ih =>
    intro fuel x rest hfuel
    cases fuel with
    | zero => simp at hfuel
    | succ n =>
      have hshape : jsonStrsBody (x :: y :: ys) ++ (93 :: rest) =
          jsonStr x ++ (44 :: (jsonStrsBody (y :: ys) ++ (93 :: rest))) := by
        simp [jsonStrsBody, List.append_assoc]
      rw [hshape, parseStrsBodyF, parseStr_jsonStr]
      have hfe : ys.length + 1 ≤ n := by
        simp only [List.length_cons] at hfuel
        omega
      show (match parseStrsBodyF n (jsonStrsBody (y :: ys) ++ (93 :: rest)) with
            | none => none
            | some (ss, rest2) => some (x :: ss, rest2)) = some (x :: y :: ys, rest)
      rw [ih n y rest hfe]

theorem parseStrsBody_jsonStrsBody (x : String) (xs : List String) (rest : List Nat) :
    parseStrsBody (jsonStrsBody (x :: xs) ++ (93 :: rest)) = some (x :: xs, rest) := by
  have hlen : xs.length + 1 ≤ (jsonStrsBody (x :: xs) ++ (93 :: rest)).length := by
    have := jsonStrsBody_length_ge x xs
    simp only [List.length_append, List.length_cons]
    omega
  exact parseStrsBodyF_jsonStrsBody xs _ x rest hlen

theorem parseStrs_jsonStrList (xs : List String) (rest : List Nat) :
    parseStrs (jsonStrList xs ++ rest) = some (xs, rest) := by
  match xs with
  | [] => rfl
  | x :: xs =>
    have hT : jsonStrsBody (x :: xs) ++ (93 :: rest) =
        34 :: (jEsc (strBytes x) ++
          (34 :: ((if xs.isEmpty then [] else [44]) ++ (jsonStrsBody xs ++ (93 :: rest))))) := by
      simp [jsonStrsBody, jsonStr, List.append_assoc]
    have hshape : jsonStrList (x :: xs) ++ rest =
        91 :: (jsonStrsBody (x :: xs) ++ (93 :: rest)) := by
      simp [jsonStrList, List.append_assoc]
    rw [hshape, hT]
    show parseStrsBody (34 :: (jEsc (strBytes x) ++
      (34 :: ((if xs.isEmpty then [] else [44]) ++ (jsonStrsBody xs ++ (93 :: rest)))))) =
      some (x :: xs, rest)
    rw [← hT, parseStrsBody_jsonStrsBody]

theorem parseStrsBodyF_length :
    ∀ fuel (l : List Nat) ss r, parseStrsBodyF fuel l = some (ss, r) → r.length < l.length := by
  intro fuel
  induction fuel with
  | zero => intro l ss r h; exact absurd h (by simp [parseStrsBodyF])
  | succ n ih =>
    intro l ss r h
    rw [parseStrsBodyF] at h
    cases hps : parseStr l with
    | none => rw [hps] at h; exact absurd h (by simp)
    | some p =>
      obtain ⟨s, r0⟩ := p
      rw [hps] at h
      have hr0 := parseStr_length hps
      cases r0 with
      | nil => exact absurd h (by simp)
      | cons b r2 =>
        simp only at h
        by_cases h93 : b = 93
        · rw [if_pos h93] at h
          obtain ⟨-, hr⟩ := Prod.mk.inj (Option.some.inj h)
          subst hr
          simp only [List.length_cons] at hr0
          omega
        · rw [if_neg h93] at h
          by_cases h44 : b = 44
          · rw [if_pos h44] at h
            cases hbody : parseStrsBodyF n r2 with
            | none => rw [hbody] at h; exact absurd h (by simp)
            | some q =>
              obtain ⟨ss0, rest0⟩ := q
              rw [hbody] at h
              obtain ⟨-, hr⟩ := Prod.mk.inj (Option.some.inj h)
              subst hr
              have := ih r2 ss0 rest0 hbody
              simp only [List.length_cons] at hr0
              omega
          · rw [if_neg h44] at h
            exact absurd h (by simp)

theorem parseStrsBody_length {l : List Nat} {ss r}
    (h : parseStrsBody l = some (ss, r)) : r.length < l.length :=
  parseStrsBodyF_length l.length l ss r h

theorem parseStrs_length :
    ∀ {l : List Nat} {ss r}, parseStrs l = some (ss, r) → r.length < l.length := by
  intro l ss r h
  rw [parseStrs.eq_def] at h
  split at h
  · obtain ⟨-, hr⟩ := Prod.mk.inj (Option.some.inj h)
    subst hr
    simp only [List.length_cons]
    omega
  · rename_i r0 _ _
    have := parseStrsBody_length h
    simp only [List.length_cons]
    omega
  · exact absurd h (by simp)

/-- Printer for a verification method object, with an explicit tail
(the continuation style keeps every append right-nested). -/
def jsonVMT (v : VerMethod) (rest : List Nat) : List Nat :=
  oId ++ (jsonStr v.id ++ (fTypeC ++ (jsonStr v.type ++
    (fValueC ++ (jsonBytes v.value ++ (125 :: rest))))))

/-- Printer for a service object, with an explicit tail. -/
def jsonServiceT (s : DidService) (rest : List Nat) : List Nat :=
  oId ++ (jsonStr s.id ++ (fTypeC ++ (jsonStr s.type ++
    (fServiceEndpointC ++ (jsonStr s.serviceEndpoint ++
      (fRecipientKeysC ++ (jsonStrList s.recipientKeys ++
        (fRoutingKeysC ++ (jsonStrList s.routingKeys ++
          (fAcceptC ++ (jsonStrList s.accept ++ (125 :: rest))))))))))))

/-- Comma-separated verification method elements, with an explicit tail. -/
def jsonVMsBodyT : List VerMethod → List Nat → List Nat
  | [], rest => rest
  | v :: vs, rest =>
      jsonVMT v (if vs.isEmpty then rest else 44 :: jsonVMsBodyT vs rest)

/-- JSON array of verification methods, with an explicit tail. -/
def jsonVMListT (xs : List VerMethod) (rest : List Nat) : List Nat :=
  match xs with
  | [] => 91 :: (93 :: rest)
  | _ => 91 :: jsonVMsBodyT xs (93 :: rest)

/-- Comma-separated service elements, with an explicit tail. -/
def jsonSvcsBodyT : List DidService → List Nat → List Nat
  | [], rest => rest
  | s :: ss, rest =>
      jsonServiceT s (if ss.isEmpty then rest else 44 :: jsonSvcsBodyT ss rest)

/-- JSON array of services, with an explicit tail. -/
def jsonSvcListT (xs : List DidService) (rest : List Nat) : List Nat :=
  match xs with
  | [] => 91 :: (93 :: rest)
  | _ => 91 :: jsonSvcsBodyT xs (93 :: rest)

/-- Printer for a DID document object, with an explicit tail. -/
def jsonDocT (d : DocM) (rest : List Nat) : List Nat :=
  oId ++ (jsonStr d.id ++ (fServiceC ++
    jsonSvcListT d.service (fVerificationMethodC ++
      jsonVMListT d.verificationMethod (fAuthenticationC ++
        jsonVMListT d.authentication (125 :: rest)))))

/-- Canonical JSON printing of a `Connection` (model of `json.Marshal`
with the `omitempty` tags: an empty `DID` and an absent `DIDDoc` are
omitted). -/
def jsonEncodeConnection (c : Connection) : List Nat :=
  if c.DID = "" then
    match c.DIDDoc with
    | none => [123, 125]
    | some d => oDIDDoc ++ jsonDocT d [125]
  else
    match c.DIDDoc with
    | none => oDID ++ (jsonStr c.DID ++ [125])
    | some d => oDID ++ (jsonStr c.DID ++ (fDIDDocC ++ jsonDocT d [125]))

/-- Parser for a verification method object. -/
def parseVM (l : List Nat) : Option (VerMethod × List Nat) := do
  let r0 ← stripPre oId l
  let (vid, r1) ← parseStr r0
  let r2 ← stripPre fTypeC r1
  let (vtype, r3) ← parseStr r2
  let r4 ← stripPre fValueC r3
  let (vval, r5) ← parseBytes r4
  let r6 ← stripPre [125] r5
  some (⟨vid, vtype, vval⟩, r6)

/-- Parser for a service object. -/
def parseService (l : List Nat) : Option (DidService × List Nat) := do
  let r0 ← stripPre oId l
  let (sid, r1) ← parseStr r0
  let r2 ← stripPre fTypeC r1
  let (stype, r3) ← parseStr r2
  let r4 ← stripPre fServiceEndpointC r3
  let (sep, r5) ← parseStr r4
  let r6 ← stripPre fRecipientKeysC r5
  let (rks, r7) ← parseStrs r6
  let r8 ← stripPre fRoutingKeysC r7
  let (rts, r9) ← parseStrs r8
  let r10 ← stripPre fAcceptC r9
  let (acc, r11) ← parseStrs r10
  let r12 ← stripPre [125] r11
  some (⟨sid, stype, sep, rks, rts, acc⟩, r12)

/-- Parser for the tail of a non-empty JSON array of verification
methods, with explicit recursion fuel. -/
def parseVMsBodyF : Nat → List Nat → Option (List VerMethod × List Nat)
  | 0, _ => none
  | fuel + 1, l =>
    match parseVM l with
    | none => none
    | some (v, r) =>
      match r with
      | [] => none
      | b :: r2 =>
        if b = 93 then some ([v], r2)
        else if b = 44 then
          match parseVMsBodyF fuel r2 with
          | none => none
          | some (vs, rest) => some (v :: vs, rest)
        else none

/-- Parser for a JSON array of verification methods. -/
def parseVMs (l : List Nat) : Option (List VerMethod × List Nat) :=
  match l with
  | 91 :: 93 :: rest => some ([], rest)
  | 91 :: r => parseVMsBodyF r.length r
  | _ => none

/-- Parser for the tail of a non-empty JSON array of services, with
explicit recursion fuel. -/
def parseSvcsBodyF : Nat → List Nat → Option (List DidService × List Nat)
  | 0, _ => none
  | fuel + 1, l =>
    match parseService l with
    | none => none
    | some (s, r) =>
      match r with
      | [] => none
      | b :: r2 =>
        if b = 93 then some ([s], r2)
        else if b = 44 then
          match parseSvcsBodyF fuel r2 with
          | none => none
          | some (ss, rest) => some (s :: ss, rest)
        else none

/-- Parser for a JSON array of services. -/
def parseSvcs (l : List Nat) : Option (List DidService × List Nat) :=
  match l with
  | 91 :: 93 :: rest => some ([], rest)
  | 91 :: r => parseSvcsBodyF r.length r
  | _ => none

/-- Parser for a DID document object. -/
def parseDoc (l : List Nat) : Option (DocM × List Nat) := do
  let r0 ← stripPre oId l
  let (i, r1) ← parseStr r0
  let r2 ← stripPre fServiceC r1
  let (svcs, r3) ← parseSvcs r2
  let r4 ← stripPre fVerificationMethodC r3
  let (vms, r5) ← parseVMs r4
  let r6 ← stripPre fAuthenticationC r5
  let (auths, r7) ← parseVMs r6
  let r8 ← stripPre [125] r7
  some (⟨i, svcs, vms, auths⟩, r8)

/-- Parser for the canonical JSON form of a `Connection` (model of
`json.Unmarshal` on the canonical documents the printer emits; the
whole input must be consumed). -/
def jsonDecodeConnection (l : List Nat) : Option Connection :=
  if l = [123, 125] then some ⟨"", none⟩
  else
    match stripPre oDID l with
    | some r0 => do
        let (s, r1) ← parseStr r0
        if r1 = [125] then some ⟨s, none⟩
        else do
          let r2 ← stripPre fDIDDocC r1
          let (d, r3) ← parseDoc r2
          if r3 = [125] then some ⟨s, some d⟩ else none
    | none =>
      match stripPre oDIDDoc l with
      | some r0 => do
          let (d, r1) ← parseDoc r0
          if r1 = [125] then some ⟨"", some d⟩ else none
      | none => none

theorem stripPre_cons125 (l : List Nat) : stripPre [125] (125 :: l) = some l := by
  simp [stripPre]

theorem parseVM_jsonVMT (v : VerMethod) (rest : List Nat) :
    parseVM (jsonVMT v rest) = some (v, rest) := by
  simp only [jsonVMT, parseVM, Option.bind_eq_bind, stripPre_append, Option.some_bind,
    parseStr_jsonStr, parseBytes_jsonBytes, stripPre_cons125]

theorem parseService_jsonServiceT (s : DidService) (rest : List Nat) :
    parseService (jsonServiceT s rest) = some (s, rest) := by
  simp only [jsonServiceT, parseService, Option.bind_eq_bind, stripPre_append,
    Option.some_bind, parseStr_jsonStr, parseStrs_jsonStrList, stripPre_cons125]

theorem jsonVMT_length_ge (v : VerMethod) (rest : List Nat) :
    rest.length + 2 ≤ (jsonVMT v rest).length := by
  simp [jsonVMT, oId, fId, fTypeC, fValueC, jsonBytes]
  omega

theorem jsonServiceT_length_ge (s : DidService) (rest : List Nat) :
    rest.length + 2 ≤ (jsonServiceT s rest).length := by
  simp [jsonServiceT, oId, fId, fTypeC, fServiceEndpointC, fRecipientKeysC,
    fRoutingKeysC, fAcceptC]
  omega

theorem jsonVMsBodyT_length_ge (x : VerMethod) (xs : List VerMethod) (t : List Nat) :
    xs.length + 2 + t.length ≤ (jsonVMsBodyT (x :: xs) t).length := by
  induction xs generalizing x t with
  | nil =>
    have hshape : jsonVMsBodyT [x] t = jsonVMT x t := by
      rw [jsonVMsBodyT]
      simp
    have := jsonVMT_length_ge x t
    rw [hshape]
    simp only [List.length_nil]
    omega
  | cons y ys ih =>
    have hshape : jsonVMsBodyT (x :: y :: ys) t = jsonVMT x (44 :: jsonVMsBodyT (y :: ys) t) := by
      rw [jsonVMsBodyT]
      simp only [List.isEmpty_cons, Bool.false_eq_true, if_false]
    have h1 := jsonVMT_length_ge x (44 :: jsonVMsBodyT (y :: ys) t)
    have h2 := ih y t
    rw [hshape]
    simp only [List.length_cons] at h1 h2 ⊢
    omega

theorem jsonSvcsBodyT_length_ge (x : DidService) (xs : List DidService) (t : List Nat) :
    xs.length + 2 + t.length ≤ (jsonSvcsBodyT (x :: xs) t).length := by
  induction xs generalizing x t with
  | nil =>
    have hshape : jsonSvcsBodyT [x] t = jsonServiceT x t := by
      rw [jsonSvcsBodyT]
      simp
    have := jsonServiceT_length_ge x t
    rw [hshape]
    simp only [List.length_nil]
    omega
  | cons y ys ih =>
    have hshape : jsonSvcsBodyT (x :: y :: ys) t = jsonServiceT x (44 :: jsonSvcsBodyT (y :: ys) t) := by
      rw [jsonSvcsBodyT]
      simp only [List.isEmpty_cons, Bool.false_eq_true, if_false]
    have h1 := jsonServiceT_length_ge x (44 :: jsonSvcsBodyT (y :: ys) t)
    have h2 := ih y t
    rw [hshape]
    simp only [List.length_cons] at h1 h2 ⊢
    omega

theorem parseVMsBodyF_jsonVMsBodyT (xs : List VerMethod) :
    ∀ (fuel : Nat) (x : VerMethod) (rest : List Nat), xs.length + 1 ≤ fuel →
      parseVMsBodyF fuel (jsonVMsBodyT (x :: xs) (93 :: rest)) = some (x :: xs, rest) := by
  induction xs with
  | nil =>
    intro fuel x rest hfuel
    cases fuel with
    | zero => simp at hfuel
    | succ n =>
      have hshape : jsonVMsBodyT [x] (93 :: rest) = jsonVMT x (93 :: rest) := by
        simp [jsonVMsBodyT]
      rw [hshape, parseVMsBodyF, parseVM_jsonVMT]
      rfl
  | cons y ys ih =>
    intro fuel x rest hfuel
    cases fuel with
    | zero => simp at hfuel
    | succ n =>
      have hshape : jsonVMsBodyT (x :: y :: ys) (93 :: rest) =
          jsonVMT x (44 :: jsonVMsBodyT (y :: ys) (93 :: rest)) := by
        simp [jsonVMsBodyT]
      rw [hshape, parseVMsBodyF, parseVM_jsonVMT]
      have hfe : ys.length + 1 ≤ n := by
        simp only [List.length_cons] at hfuel
        omega
      show (match parseVMsBodyF n (jsonVMsBodyT (y :: ys) (93 :: rest)) with
            | none => none
            | some (vs, rest2) => some (x :: vs, rest2)) = some (x :: y :: ys, rest)
      rw [ih n y rest hfe]

theorem parseSvcsBodyF_jsonSvcsBodyT (xs : List DidService) :
    ∀ (fuel : Nat) (x : DidService) (rest : List Nat), xs.length + 1 ≤ fuel →
      parseSvcsBodyF fuel (jsonSvcsBodyT (x :: xs) (93 :: rest)) = some (x :: xs, rest) := by
  induction xs with
  | nil =>
    intro fuel x rest hfuel
    cases fuel with
    | zero => simp at hfuel
    | succ n =>
      have hshape : jsonSvcsBodyT [x] (93 :: rest) = jsonServiceT x (93 :: rest) := by
        simp [jsonSvcsBodyT]
      rw [hshape, parseSvcsBodyF, parseService_jsonServiceT]
      rfl
  | cons y ys ih =>
    intro fuel x rest hfuel
    cases fuel with
    | zero => simp at hfuel
    | succ n =>
      have hshape : jsonSvcsBodyT (x :: y :: ys) (93 :: rest) =
          jsonServiceT x (44 :: jsonSvcsBodyT (y :: ys) (93 :: rest)) := by
        simp [jsonSvcsBodyT]
      rw [hshape, parseSvcsBodyF, parseService_jsonServiceT]
      have hfe : ys.length + 1 ≤ n := by
        simp only [List.length_cons] at hfuel
        omega
      show (match parseSvcsBodyF n (jsonSvcsBodyT (y :: ys) (93 :: rest)) with
            | none => none
            | some (ss, rest2) => some (x :: ss, rest2)) = some (x :: y :: ys, rest)
      rw [ih n y rest hfe]

theorem parseVMs_jsonVMListT (xs : List VerMethod) (rest : List Nat) :
    parseVMs (jsonVMListT xs rest) = some (xs, rest) := by
  match xs with
  | [] => rfl
  | x :: xs =>
    obtain ⟨T, hT⟩ : ∃ T, jsonVMsBodyT (x :: xs) (93 :: rest) = 123 :: T :=
      ⟨_, by rw [jsonVMsBodyT, jsonVMT, oId]; rw [List.cons_append]⟩
    have hshape : jsonVMListT (x :: xs) rest =
        91 :: jsonVMsBodyT (x :: xs) (93 :: rest) := by
      cases xs <;> rfl
    rw [hshape, hT]
    show parseVMsBodyF (123 :: T).length (123 :: T) = some (x :: xs, rest)
    rw [← hT]
    apply parseVMsBodyF_jsonVMsBodyT
    have := jsonVMsBodyT_length_ge x xs (93 :: rest)
    omega

theorem parseSvcs_jsonSvcListT (xs : List DidService) (rest : List Nat) :
    parseSvcs (jsonSvcListT xs rest) = some (xs, rest) := by
  match xs with
  | [] => rfl
  | x :: xs =>
    obtain ⟨T, hT⟩ : ∃ T, jsonSvcsBodyT (x :: xs) (93 :: rest) = 123 :: T :=
      ⟨_, by rw [jsonSvcsBodyT, jsonServiceT, oId]; rw [List.cons_append]⟩
    have hshape : jsonSvcListT (x :: xs) rest =
        91 :: jsonSvcsBodyT (x :: xs) (93 :: rest) := by
      cases xs <;> rfl
    rw [hshape, hT]
    show parseSvcsBodyF (123 :: T).length (123 :: T) = some (x :: xs, rest)
    rw [← hT]
    apply parseSvcsBodyF_jsonSvcsBodyT
    have := jsonSvcsBodyT_length_ge x xs (93 :: rest)
    omega

theorem parseDoc_jsonDocT (d : DocM) (rest : List Nat) :
    parseDoc (jsonDocT d rest) = some (d, rest) := by
  simp only [jsonDocT, parseDoc, Option.bind_eq_bind, stripPre_append, Option.some_bind,
    parseStr_jsonStr, parseSvcs_jsonSvcListT, parseVMs_jsonVMListT, stripPre_cons125]

theorem jsonDecodeConnection_encode (c : Connection) :
    jsonDecodeConnection (jsonEncodeConnection c) = some c := by
  obtain ⟨sDID, doc⟩ := c
  by_cases hd : sDID = ""
  · subst hd
    cases doc with
    | none => rfl
    | some d =>
      have henc : jsonEncodeConnection ⟨"", some d⟩ = oDIDDoc ++ jsonDocT d [125] := by
        simp [jsonEncodeConnection]
      have hne : oDIDDoc ++ jsonDocT d [125] ≠ [123, 125] := by
        rw [oDIDDoc, fDIDDoc]
        intro hcontra
        simp at hcontra
      have hfail : stripPre oDID (oDIDDoc ++ jsonDocT d [125]) = none := by
        rw [oDID, oDIDDoc, fDID, fDIDDoc]
        rfl
      rw [henc, jsonDecodeConnection, if_neg hne, hfail, stripPre_append]
      simp [parseDoc_jsonDocT]
  · cases doc with
    | none =>
      have henc : jsonEncodeConnection ⟨sDID, none⟩ = oDID ++ (jsonStr sDID ++ [125]) := by
        simp [jsonEncodeConnection, hd]
      have hne : oDID ++ (jsonStr sDID ++ [125]) ≠ [123, 125] := by
        rw [oDID, fDID]
        intro hcontra
        simp at hcontra
      rw [henc, jsonDecodeConnection, if_neg hne, stripPre_append]
      simp only [Option.bind_eq_bind, parseStr_jsonStr, Option.some_bind]
      simp
    | some d =>
      have henc : jsonEncodeConnection ⟨sDID, some d⟩ =
          oDID ++ (jsonStr sDID ++ (fDIDDocC ++ jsonDocT d [125])) := by
        simp [jsonEncodeConnection, hd]
      have hne : oDID ++ (jsonStr sDID ++ (fDIDDocC ++ jsonDocT d [125])) ≠ [123, 125] := by
        rw [oDID, fDID]
        intro hcontra
        simp at hcontra
      have hne2 : fDIDDocC ++ jsonDocT d [125] ≠ [125] := by
        rw [fDIDDocC]
        intro hcontra
        simp at hcontra
      rw [henc, jsonDecodeConnection, if_neg hne, stripPre_append]
      simp only [Option.bind_eq_bind, parseStr_jsonStr, Option.some_bind]
      rw [if_neg hne2, stripPre_append]
      simp [parseDoc_jsonDocT]

/-- Model of `decorator.Thread` (`ID`, `PID`). -/
structure Thread where
  id : String
  pid : String
deriving DecidableEq

/-- Model of the legacy `Invitation`, reduced to the fields the core
reads (`ID`, `DID`, `RecipientKeys`, `ServiceEndpoint`,
`RoutingKeys`). -/
structure Invitation where
  ID : String
  DID : String
  RecipientKeys : List String
  ServiceEndpoint : String
  RoutingKeys : List String
deriving DecidableEq

/-- Decidable equality for `Except` values (needed by the derived
equality of structures carrying decode outcomes). -/
instance {e a : Type} [DecidableEq e] [DecidableEq a] : DecidableEq (Except e a) :=
  fun x y =>
    match x, y with
    | .ok v, .ok w =>
      if h : v = w then isTrue (by rw [h]) else isFalse (fun hc => h (Except.ok.inj hc))
    | .ok _, .error _ => isFalse (fun hc => Except.noConfusion hc)
    | .error _, .ok _ => isFalse (fun hc => Except.noConfusion hc)
    | .error v, .error w =>
      if h : v = w then isTrue (by rw [h]) else isFalse (fun hc => h (Except.error.inj hc))

/-- The polymorphic `OOBInvitation.Target`: a DID string, a service
block, or a generic map (the map case carries the outcome of the
external `mapstructure` JSON-tag-aware decoder); anything else is
unsupported. -/
inductive OOBTarget where
  | didRef (s : String) : OOBTarget
  | svcBlock (s : DidService) : OOBTarget
  | rawMap (decoded : Except DexErr DidService) : OOBTarget
  | unsupported : OOBTarget
deriving DecidableEq

/-- Model of `OOBInvitation`, reduced to the fields the core reads
(`ID`, `Type`, `MyLabel`, `Target`, `MediaTypeProfiles`). -/
structure OOBInvitation where
  ID : String
  msgType : String
  MyLabel : String
  Target : OOBTarget
  MediaTypeProfiles : List String
deriving DecidableEq

/-- Model of `connectionstore.Record`, reduced to the fields the core
reads and writes. -/
structure Record where
  ThreadID : String
  ParentThreadID : String
  MyDID : String
  TheirDID : String
  TheirLabel : String
  RecipientKeys : List String
  MediaTypeProfiles : List String
  Implicit : Bool
deriving DecidableEq

instance : Inhabited Record := ⟨⟨"", "", "", "", "", [], [], false⟩⟩

/-- Model of `ConnectionSignature` (`Type`, `SignedData`, `SignVerKey`,
`Signature`). -/
structure ConnectionSignature where
  sigType : String
  SignedData : String
  SignVerKey : String
  Signature : String
deriving DecidableEq

/-- Model of `service.Destination`, reduced to the fields the core
reads and writes. -/
structure Destination where
  RecipientKeys : List String
  ServiceEndpoint : String
  RoutingKeys : List String
  MediaTypeProfiles : List String
deriving DecidableEq

/-- Model of `decorator.AttachmentData`: the base64 payload (signing
is the external `Data.Sign`, a collaborator in the context). -/
structure AttachmentData where
  Base64 : String
deriving DecidableEq

/-- Model of `decorator.Attachment`, reduced to the fields the core
writes. -/
structure Attachment where
  MimeType : String
  Data : AttachmentData
deriving DecidableEq

/-- Model of the didexchange `Request` message. -/
structure Request where
  msgType : String
  ID : String
  Label : String
  Connection : Option Connection
  Thread : Option Thread
  DocAttach : Option Attachment
deriving DecidableEq

/-- Model of the didexchange `Response` message. -/
structure Response where
  msgType : String
  ID : String
  Thread : Option Thread
  ConnectionSignature : Option ConnectionSignature
  DID : String
  DocAttach : Option Attachment
deriving DecidableEq

/-- Model of `model.Ack`. -/
structure Ack where
  msgType : String
  ID : String
  Status : String
  Thread : Thread
deriving DecidableEq

/-- Constant `ackStatusOK`. -/
def ackStatusOK : String := "ok"

/-- Modelled from the spec: the namespace prefix `myNSPrefix` used for
records indexed by inbound thread id (declared in the connection
store, outside the provided sources). -/
def myNSPref : String := "my"

/-- Modelled from the spec: `connectionstore.CreateNamespaceKey`
builds the lookup key `prefix:<thid>`; it fails on an empty thread
id. -/
def createNamespaceKey (pre thid : String) : Except DexErr String :=
  if thid = "" then .error (.msg "empty bytes") else .ok (pre ++ ":" ++ thid)

/-- The outbound message captured by a state action. -/
inductive OutboundMsg where
  | req (r : Request) : OutboundMsg
  | resp (r : Response) : OutboundMsg
  | ack (a : Ack) : OutboundMsg
deriving DecidableEq

/-- Model of the `stateAction` closures the source returns: either the
no-op `func() error { return nil }` or a closure performing exactly
one `outboundDispatcher.Send(msg, senderKey, dest)`. -/
inductive StateAction where
  | noop : StateAction
  | send (msg : OutboundMsg) (senderKey : String) (dest : Destination) : StateAction
deriving DecidableEq

/-- Number of outbound dispatches an action performs when invoked. -/
def dispatchCount : StateAction → Nat
  | .noop => 0
  | .send _ _ _ => 1

/-- Key handles returned by the KMS (opaque to the core). -/
abbrev KeyHandle := String

/-- Model of `kms.KeyType`, covering the cases `convertPubKeyBytes`
dispatches on. -/
inductive KeyType where
  | ED25519 : KeyType
  | BLS12381G2 : KeyType
  | ECDSAP256IEEEP1363 : KeyType
  | ECDSAP384IEEEP1363 : KeyType
  | ECDSAP521IEEEP1363 : KeyType
  | ECDSAP256DER : KeyType
  | ECDSAP384DER : KeyType
  | ECDSAP521DER : KeyType
  | other : KeyType
deriving DecidableEq

/-- Result of `did.Parse`, reduced to the method the core reads. -/
structure ParsedDID where
  method : String
deriving DecidableEq

/-- Model of the `options` bundle (`publicDID`, `routerConnections`,
`label`). -/
structure Options where
  publicDID : String
  routerConnections : List String
  label : String
deriving DecidableEq

/-- Function `getPublicDID` (a `nil` options pointer is `none`). -/
def getPublicDID (options : Option Options) : String :=
  match options with
  | none => ""
  | some o => o.publicDID

/-- Function `getRouterConnections`. -/
def getRouterConnections (options : Option Options) : List String :=
  match options with
  | none => []
  | some o => o.routerConnections

/-- Function `getLabel`. -/
def getLabel (options : Option Options) : String :=
  match options with
  | none => ""
  | some o => o.label

/-- The collaborator bundle behind the source's `context` struct: every
field is one interface method the core consumes (KMS, crypto, VDR
registry, mediator, connection recorder and store, DID/service
helpers), plus the interop flag, the clock reading used by
`getEpochTime`, and the UUID the `uuid.New()` call yields. -/
structure Context where
  doACAPyInterop : Bool
  now : Nat
  uuid : String
  getOOBInvitation : String → Except DexErr OOBInvitation
  getInvitation : String → Except DexErr Invitation
  getConnectionRecordByNSThreadID : String → Except DexErr Record
  vdrResolve : String → Except DexErr DocM
  vdrCreate : String → DocM → Bool → Except DexErr DocM
  saveDIDFromDoc : DocM → Except DexErr Unit
  lookupService : DocM → String → Option DidService
  createDestination : DocM → Except DexErr Destination
  serviceGetDestination : String → Except DexErr Destination
  didParse : String → Except DexErr ParsedDID
  getRouterConfig : String → Except DexErr (String × List String)
  addKeyToRouter : String → String → Except DexErr Unit
  kmsCreateAndExport : KeyType → Except DexErr (String × List Nat)
  createKID : List Nat → KeyType → Except DexErr String
  kmsGet : String → Except DexErr KeyHandle
  pubKeyFromDIDKey : String → Except DexErr (List Nat)
  x509ParseAndRemarshal : List Nat → Except DexErr (List Nat)
  sign : List Nat → KeyHandle → Except DexErr (List Nat)
  verify : List Nat → List Nat → List Nat → Except DexErr Unit
  attachVerify : Attachment → Except DexErr Unit
  attachSign : AttachmentData → KeyHandle → List Nat → Except DexErr AttachmentData
  convertPeerToSov : DocM → Except DexErr DocM
  serializeInterop : DocM → Except DexErr (List Nat)

/-- The inbound `stateMachineMsg`: its type, the pre-loaded connection
record (`nil` is `none`), the options, and the outcomes of
`msg.Decode` at each target type (payload decoding is external JSON
unmarshalling). -/
structure StateMachineMsg where
  msgType : String
  connRecord : Option Record
  options : Option Options
  decodeInvitation : Except DexErr Invitation
  decodeOOB : Except DexErr OOBInvitation
  decodeRequest : Except DexErr Request
  decodeResponse : Except DexErr Response
  decodeComplete : Except DexErr Unit

/-- Function `isDID` (`strings.HasPrefix(str, "did:")`, stated over
the character data so that it evaluates by reduction). -/
def isDID (str : String) : Bool := "did:".data.isPrefixOf str.data

/-- Model of `strings.TrimPrefix`. -/
def trimPre (s pre : String) : String :=
  if pre.isPrefixOf s then s.drop pre.length else s

/-- Function `getServiceBlock`: dispatch on the polymorphic target,
then let a non-empty `MediaTypeProfiles` override `Accept`
(RFC 0587 precedence).  `svc.RecipientKeys[0]`-style indexing is
modelled by `headD ""` (Go would panic on an empty slice; no claim
exercises that case). -/
def getServiceBlock (ctx : Context) (i : OOBInvitation) : Except DexErr DidService :=
  let blockE : Except DexErr DidService :=
    match i.Target with
    | .didRef svc =>
      match ctx.vdrResolve svc with
      | .error e => .error (.wrap ("failed to resolve myDID=" ++ svc ++ " : ") e)
      | .ok doc =>
        match ctx.lookupService doc didCommServiceType with
        | some s => .ok s
        | none => .error (.msg ("no valid service block found on myDID=" ++ svc ++
            " with serviceType=" ++ didCommServiceType))
    | .svcBlock s => .ok s
    | .rawMap dec =>
      match dec with
      | .ok s => .ok s
      | .error e => .error (.wrap "failed to decode service block : " e)
    | .unsupported => .error (.msg "unsupported target type")
  match blockE with
  | .error e => .error e
  | .ok block =>
      .ok (if i.MediaTypeProfiles.length > 0 then
        { block with accept := i.MediaTypeProfiles } else block)

/-- Function `resolveVerKey`. -/
def resolveVerKey (ctx : Context) (i : OOBInvitation) : Except DexErr String :=
  match getServiceBlock ctx i with
  | .error e => .error (.wrap "failed to get service block from oobinvitation : " e)
  | .ok svc => .ok (svc.recipientKeys.headD "")

/-- Function `getVerKeyFromOOBInvitation`: a store miss
(`storage.ErrDataNotFound`) and an OOB-type mismatch both surface the
`errVerKeyNotFound` sentinel. -/
def getVerKeyFromOOBInvitation (ctx : Context) (invitationID : String) :
    Except DexErr String :=
  match ctx.getOOBInvitation invitationID with
  | .error e =>
    if errorIs e .dataNotFound then .error .verKeyNotFound
    else .error (.wrap "failed to load oob invitation: " e)
  | .ok invitation =>
    if invitation.msgType ≠ oobMsgType then .error .verKeyNotFound
    else
      match resolveVerKey ctx invitation with
      | .error e => .error (.wrap "failed to get my verkey: " e)
      | .ok pubKey => .ok pubKey

/-- Function `recipientKey`: the first destination recipient key of a
DID document. -/
def recipientKeyF (ctx : Context) (doc : DocM) : Except DexErr String :=
  match ctx.createDestination doc with
  | .error e => .error (.wrap "failed to create destination: " e)
  | .ok dest => .ok (dest.RecipientKeys.headD "")

/-- Function `getInvitationRecipientKey`. -/
def getInvitationRecipientKey (ctx : Context) (invitation : Invitation) :
    Except DexErr String :=
  if invitation.DID ≠ "" then
    match ctx.vdrResolve invitation.DID with
    | .error e => .error (.wrap "get invitation recipient key: " e)
    | .ok doc =>
      match recipientKeyF ctx doc with
      | .error e => .error (.wrap "getInvitationRecipientKey: " e)
      | .ok recKey => .ok recKey
  else .ok (invitation.RecipientKeys.headD "")

/-- Function `getVerKey`: try the OOB store, fall back on the
`errVerKeyNotFound` sentinel — to a synthesised invitation when the id
is itself a DID, otherwise to the legacy invitation store. -/
def getVerKey (ctx : Context) (invitationID : String) : Except DexErr String :=
  match getVerKeyFromOOBInvitation ctx invitationID with
  | .ok pubKey => .ok pubKey
  | .error err =>
    if errorIs err .verKeyNotFound = false then
      .error (.wrap "failed to get my verkey from oob invitation: " err)
    else
      let invE : Except DexErr Invitation :=
        if isDID invitationID then
          .ok { ID := invitationID, DID := invitationID, RecipientKeys := [],
                ServiceEndpoint := "", RoutingKeys := [] }
        else
          match ctx.getInvitation invitationID with
          | .ok inv => .ok inv
          | .error e => .error (.wrap ("get invitation for signature [invitationID=" ++
              invitationID ++ "]: ") e)
      match invE with
      | .error e => .error e
      | .ok invitation =>
        match getInvitationRecipientKey ctx invitation with
        | .error e => .error (.wrap "get invitation recipient key: " e)
        | .ok invPubKey => .ok invPubKey

/-- Function `getDestination`. -/
def getDestination (ctx : Context) (invitation : Invitation) :
    Except DexErr Destination :=
  if invitation.DID ≠ "" then ctx.serviceGetDestination invitation.DID
  else .ok { RecipientKeys := invitation.RecipientKeys,
             ServiceEndpoint := invitation.ServiceEndpoint,
             RoutingKeys := invitation.RoutingKeys,
             MediaTypeProfiles := [] }

/-- Function `convertPubKeyBytes` (the DER branch's
`x509.ParsePKIXPublicKey` + `elliptic.Marshal` pair is the external
collaborator `x509ParseAndRemarshal`). -/
def convertPubKeyBytes (ctx : Context) (bytes : List Nat) (keyType : KeyType) :
    Except DexErr (List Nat) :=
  match keyType with
  | .ED25519 | .BLS12381G2 => .ok bytes
  | .ECDSAP256IEEEP1363 | .ECDSAP384IEEEP1363 | .ECDSAP521IEEEP1363 =>
      .ok (bytes.drop 1)
  | .ECDSAP256DER | .ECDSAP384DER | .ECDSAP521DER =>
    match ctx.x509ParseAndRemarshal bytes with
    | .error e => .error e
    | .ok marshalled => .ok (marshalled.drop 1)
  | .other => .error (.msg "invalid key type")

/-- The `vmType` map / `getVerMethodType` lookup (a missing key yields
the Go zero value). -/
def getVerMethodType : KeyType → String
  | .ED25519 => ed25519VerificationKey2018
  | .BLS12381G2 => bls12381G2Key2020
  | .other => ""
  | _ => jsonWebKey2020

/-- Function `createNewKeyAndVerificationMethod` (pure state-passing:
returns the document with the appended verification method and
referenced authentication). -/
def createNewKeyAndVerificationMethod (ctx : Context) (didDoc : DocM)
    (keyType : KeyType) : Except DexErr DocM :=
  let vmt := getVerMethodType keyType
  match ctx.kmsCreateAndExport keyType with
  | .error e => .error e
  | .ok (kid, pubKeyBytes) =>
    match convertPubKeyBytes ctx pubKeyBytes keyType with
    | .error e => .error e
    | .ok pubKeyBytes2 =>
      let vm : VerMethod := { id := "#" ++ kid, type := vmt, value := pubKeyBytes2 }
      .ok { didDoc with
            verificationMethod := didDoc.verificationMethod ++ [vm],
            authentication := didDoc.authentication ++ [vm] }

/-- The router-services loop of `getDIDDocAndConnection`: one
`did.Service` per router connection from its mediator config. -/
def buildRouterServices (ctx : Context) : List String → Except DexErr (List DidService)
  | [] => .ok []
  | connID :: rest =>
    match ctx.getRouterConfig connID with
    | .error e => .error (.wrap "did doc - fetch router config: " e)
    | .ok (serviceEndpoint, routingKeys) =>
      match buildRouterServices ctx rest with
      | .error e => .error e
      | .ok svcs =>
          .ok ({ id := "", type := "", serviceEndpoint := serviceEndpoint,
                 recipientKeys := [], routingKeys := routingKeys, accept := [] } :: svcs)

/-- The inner mediator-registration loop: add one recipient key to one
router connection. -/
def addKeyConns (ctx : Context) (recKey : String) : List String → Except DexErr Unit
  | [] => .ok ()
  | connID :: rest =>
    match ctx.addKeyToRouter connID recKey with
    | .error e => .error (.wrap "did doc - add key to the router: " e)
    | .ok _ => addKeyConns ctx recKey rest

/-- The outer mediator-registration loop over the recipient keys of
the created document's did-communication service. -/
def addKeysLoop (ctx : Context) (connIDs : List String) :
    List String → Except DexErr Unit
  | [] => .ok ()
  | recKey :: rest =>
    match addKeyConns ctx recKey connIDs with
    | .error e => .error e
    | .ok _ => addKeysLoop ctx connIDs rest

/-- The router-registration step of `getDIDDocAndConnection` (skipped
when the created document has no did-communication service). -/
def addRecKeysToRouter (ctx : Context) (doc : DocM)
    (routerConnections : List String) : Except DexErr Unit :=
  match ctx.lookupService doc didCommServiceType with
  | none => .ok ()
  | some svc => addKeysLoop ctx routerConnections svc.recipientKeys

/-- Function `getDIDDocAndConnection`: reuse a public DID (no embedded
document in the connection), or create a fresh peer DID seeded with a
new Ed25519 verification method, wire mediator routing, persist, and
return the connection embedding the document. -/
def getDIDDocAndConnection (ctx : Context) (pubDID : String)
    (routerConnections : List String) : Except DexErr (DocM × Connection) :=
  if pubDID ≠ "" then
    match ctx.vdrResolve pubDID with
    | .error e => .error (.wrap ("resolve public did[" ++ pubDID ++ "]: ") e)
    | .ok doc =>
      match ctx.saveDIDFromDoc doc with
      | .error e => .error e
      | .ok _ => .ok (doc, { DID := doc.id, DIDDoc := none })
  else
    match buildRouterServices ctx routerConnections with
    | .error e => .error e
    | .ok services0 =>
      let services := if services0.isEmpty then [default] else services0
      let newDID : DocM := { id := "", service := services,
                             verificationMethod := [], authentication := [] }
      match createNewKeyAndVerificationMethod ctx newDID .ED25519 with
      | .error e => .error (.wrap "failed to create and export public key: " e)
      | .ok newDID2 =>
        match ctx.vdrCreate didMethod newDID2 false with
        | .error e => .error (.wrap ("create " ++ didMethod ++ " did: ") e)
        | .ok doc =>
          match (if routerConnections.length ≠ 0 then
              addRecKeysToRouter ctx doc routerConnections else .ok ()) with
          | .error e => .error e
          | .ok _ =>
            match ctx.saveDIDFromDoc doc with
            | .error e => .error e
            | .ok _ => .ok (doc, { DID := doc.id, DIDDoc := some doc })

/-- Modelled from the spec: `getRequestConnection` extracts the remote
`Connection` from a request (declared in the interop file outside the
provided sources; the legacy-field fallback is folded into the
`Connection` option). -/
def getRequestConnection (r : Request) : Except DexErr Connection :=
  match r.Connection with
  | some c => .ok c
  | none => .error (.msg "missing connection field")

/-- Function `resolveDidDocFromConnection`: store a provided document
(converting a `sov` method to `peer` for interop) or resolve the DID. -/
def resolveDidDocFromConnection (ctx : Context) (conn : Connection) :
    Except DexErr DocM :=
  match conn.DIDDoc with
  | none =>
    match ctx.vdrResolve conn.DID with
    | .error e => .error e
    | .ok doc => .ok doc
  | some didDoc =>
    match ctx.didParse didDoc.id with
    | .error e => .error (.wrap ("resolveDidDocFromConnection: failed to parse DID [" ++
        didDoc.id ++ "]: ") e)
    | .ok pid =>
      let method := if pid.method = "sov" then "peer" else pid.method
      match ctx.vdrCreate method didDoc true with
      | .error e => .error (.wrap "failed to store provided did document: " e)
      | .ok _ => .ok didDoc

/-- Function `prepareConnectionSignature`: sign the 8-byte big-endian
UNIX timestamp concatenated with the JSON of the connection, with the
key `getVerKey` resolves for the invitation id; base64url-encode data
and signature. -/
def prepareConnectionSignature (ctx : Context) (connection : Connection)
    (invitationID : String) : Except DexErr ConnectionSignature :=
  let connAttributeBytes := jsonEncodeConnection connection
  let timestampBuf := beBytes timestamplen ctx.now
  let concatenateSignData := timestampBuf ++ connAttributeBytes
  match getVerKey ctx invitationID with
  | .error e => .error (.wrap "failed to get verkey: " e)
  | .ok didKey =>
    match ctx.pubKeyFromDIDKey didKey with
    | .error e => .error (.wrap ("failed to extract pubKeyBytes from did:key [" ++
        didKey ++ "]: ") e)
    | .ok pubKeyBytes =>
      match ctx.createKID pubKeyBytes .ED25519 with
      | .error e => .error
          (.wrap "prepareConnectionSignature: failed to generate KID from public key: " e)
      | .ok signingKID =>
        match ctx.kmsGet signingKID with
        | .error e => .error
            (.wrap "prepareConnectionSignature: failed to get key handle: " e)
        | .ok kh =>
          match ctx.sign concatenateSignData kh with
          | .error e => .error (.wrap "sign response message: " e)
          | .ok signature =>
            .ok { sigType := "https://didcomm.org/signature/1.0/ed25519Sha512_single",
                  SignedData := bytesStr (b64Encode concatenateSignData),
                  SignVerKey := didKey,
                  Signature := bytesStr (b64Encode signature) }

/-- Function `verifySignature`: base64url-decode data and signature,
derive the public key from the caller-supplied recipient key (never
from the signature's own `SignVerKey`), verify, then require more
than the 8 timestamp bytes and JSON-decode the remainder.  The
ed25519 suite verifier and the `did:key` parser are passed in as the
collaborators they are. -/
def verifySignature (pkF : String → Except DexErr (List Nat))
    (vf : List Nat → List Nat → List Nat → Except DexErr Unit)
    (connSignature : ConnectionSignature) (recipientKeys : String) :
    Except DexErr Connection :=
  match b64Decode (strBytes connSignature.SignedData) with
  | none => .error (.wrap "decode signature data: " (.msg "illegal base64 data"))
  | some sigData =>
    if sigData.length = 0 then .error (.msg "missing or invalid signature data")
    else
      match b64Decode (strBytes connSignature.Signature) with
      | none => .error (.wrap "decode signature: " (.msg "illegal base64 data"))
      | some signature =>
        match pkF recipientKeys with
        | .error e => .error
            (.wrap ("verifySignature: failed to parse pubKeyBytes from recipientKeys [" ++
              recipientKeys ++ "]: ") e)
        | .ok pubKey =>
          match vf pubKey sigData signature with
          | .error e => .error (.wrap "verify signature: " e)
          | .ok _ =>
            if sigData.length ≤ timestamplen then
              .error (.msg "missing connection attribute bytes")
            else
              match jsonDecodeConnection (sigData.drop timestamplen) with
              | none => .error (.wrap "JSON unmarshalling of connection: "
                  (.msg "invalid character"))
              | some conn => .ok conn

/-- The standard base64 alphabet (for the interop attachment, which
uses `base64.StdEncoding`). -/
def b64StdAlpha (n : Nat) : Nat :=
  if n < 26 then 65 + n
  else if n < 52 then 97 + (n - 26)
  else if n < 62 then 48 + (n - 52)
  else if n = 62 then 43
  else 47

/-- Model of `base64.StdEncoding.EncodeToString` (as bytes). -/
def b64StdEncode : List Nat → List Nat
  | [] => []
  | [b0] => [b64StdAlpha (b0 / 4), b64StdAlpha (b0 % 4 * 16), 61, 61]
  | [b0, b1] =>
      [b64StdAlpha (b0 / 4), b64StdAlpha (b0 % 4 * 16 + b1 / 16),
       b64StdAlpha (b1 % 16 * 4), 61]
  | b0 :: b1 :: b2 :: rest =>
      b64StdAlpha (b0 / 4) :: b64StdAlpha (b0 % 4 * 16 + b1 / 16) ::
      b64StdAlpha (b1 % 16 * 4 + b2 / 64) :: b64StdAlpha (b2 % 64) ::
      b64StdEncode rest

/-- Function `prepareResponseWithSignedAttachment` (the interop path).
The `none` result marks the unconditional `request.Thread.PID`
dereference: on a `nil` thread Go panics at the `getVerKey` call. -/
def prepareResponseWithSignedAttachment (ctx : Context) (request : Request)
    (response : Response) (responseDidDoc : DocM) :
    Option (Except DexErr Response) :=
  let verifyStep : Except DexErr Unit :=
    match request.DocAttach with
    | some att =>
      match ctx.attachVerify att with
      | .error e => .error (.wrap "verifying signature on doc~attach: " e)
      | .ok _ => .ok ()
    | none => .ok ()
  match verifyStep with
  | .error e => some (.error e)
  | .ok _ =>
    let docBytesE : Except DexErr (List Nat) :=
      if ctx.doACAPyInterop then
        match ctx.serializeInterop responseDidDoc with
        | .error e => .error (.wrap "marshaling did doc: " e)
        | .ok b => .ok b
      else .ok []
    match docBytesE with
    | .error e => some (.error e)
    | .ok docBytes =>
      let docAttach : Attachment :=
        { MimeType := "application/json",
          Data := { Base64 := bytesStr (b64StdEncode docBytes) } }
      match request.Thread with
      | none => none
      | some t =>
        some (
          match getVerKey ctx t.pid with
          | .error e => .error (.wrap "getting sender verkey: " e)
          | .ok invitationKey =>
            match ctx.pubKeyFromDIDKey invitationKey with
            | .error e => .error (.wrap ("failed to extract pubKeyBytes from did:key [" ++
                invitationKey ++ "]: ") e)
            | .ok pubKeyBytes =>
              match ctx.createKID pubKeyBytes .ED25519 with
              | .error e => .error (.wrap "failed to generate KID from public key: " e)
              | .ok signingKID =>
                match ctx.kmsGet signingKID with
                | .error e => .error (.wrap "failed to get key handle: " e)
                | .ok kh =>
                  match ctx.attachSign docAttach.Data kh pubKeyBytes with
                  | .error e => .error (.wrap "signing did_doc~attach: " e)
                  | .ok signedData =>
                    .ok { response with
                          DID := trimPre responseDidDoc.id "did:sov:",
                          DocAttach := some { docAttach with Data := signedData } })

/-- Function `prepareResponse`.  The parent-thread copy is guarded by
`request.Thread != nil`, but the non-interop path then evaluates
`request.Thread.PID` unconditionally when calling
`prepareConnectionSignature`: the `none` result marks that nil
dereference. -/
def prepareResponse (ctx : Context) (request : Request) (responseDidDoc : DocM)
    (responseConnection : Connection) : Option (Except DexErr Response) :=
  let response0 : Response :=
    { msgType := ResponseMsgType, ID := ctx.uuid,
      Thread := some { id := request.ID, pid := "" }, ConnectionSignature := none,
      DID := "", DocAttach := none }
  let response := match request.Thread with
    | some t => { response0 with Thread := some { id := request.ID, pid := t.pid } }
    | none => response0
  if ctx.doACAPyInterop then
    prepareResponseWithSignedAttachment ctx request response responseDidDoc
  else
    match request.Thread with
    | none => none
    | some t =>
      some (match prepareConnectionSignature ctx responseConnection t.pid with
        | .error e => .error (.wrap "connection signature: " e)
        | .ok encodedConnectionSignature =>
            .ok { response with ConnectionSignature := some encodedConnectionSignature })

/-- Function `handleInboundOOBInvitation` (a `nil` `msg.connRecord` is
modelled as the zero record). -/
def handleInboundOOBInvitation (ctx : Context) (msg : StateMachineMsg)
    (thid : String) (options : Option Options) :
    Except DexErr (StateAction × Record) :=
  match getDIDDocAndConnection ctx (getPublicDID options) (getRouterConnections options) with
  | .error e => .error
      (.wrap "handleInboundOOBInvitation - failed to get diddoc and connection: " e)
  | .ok (myDID, conn) =>
    let connRec := { (msg.connRecord.getD default) with MyDID := myDID.id, ThreadID := thid }
    match msg.decodeOOB with
    | .error e => .error (.wrap "failed to decode oob invitation: " e)
    | .ok oobInvitation =>
      let request : Request :=
        { msgType := RequestMsgType, ID := thid,
          Label := oobInvitation.MyLabel, Connection := some conn,
          Thread := some { id := thid, pid := connRec.ParentThreadID }, DocAttach := none }
      match getServiceBlock ctx oobInvitation with
      | .error e => .error (.wrap "failed to get service block: " e)
      | .ok svc =>
        let dest : Destination :=
          { RecipientKeys := svc.recipientKeys,
            ServiceEndpoint := svc.serviceEndpoint, RoutingKeys := svc.routingKeys,
            MediaTypeProfiles := svc.accept }
        match recipientKeyF ctx myDID with
        | .error e => .error (.wrap "handle inbound OOBInvitation: " e)
        | .ok recipientKey => .ok (.send (.req request) recipientKey dest, connRec)

/-- Function `handleInboundInvitation`. -/
def handleInboundInvitation (ctx : Context) (invitation : Invitation)
    (thid : String) (options : Option Options) (connRec : Record) :
    Except DexErr (StateAction × Record) :=
  match getDestination ctx invitation with
  | .error e => .error e
  | .ok destination =>
    match getDIDDocAndConnection ctx (getPublicDID options) (getRouterConnections options) with
    | .error e => .error e
    | .ok (didDoc, conn) =>
      let pid := if connRec.Implicit then invitation.DID else invitation.ID
      let request : Request :=
        { msgType := RequestMsgType, ID := thid,
          Label := getLabel options, Connection := some conn,
          Thread := some { id := "", pid := pid }, DocAttach := none }
      let connRec2 := { connRec with MyDID := conn.DID }
      match recipientKeyF ctx didDoc with
      | .error e => .error (.wrap "handle inbound invitation: " e)
      | .ok senderKey => .ok (.send (.req request) senderKey destination, connRec2)

/-- Function `handleInboundRequest`; the `none` result propagates the
nil-thread dereference of `prepareResponse`. -/
def handleInboundRequest (ctx : Context) (request : Request)
    (options : Option Options) (connRec : Record) :
    Option (Except DexErr (StateAction × Record)) :=
  match getRequestConnection request with
  | .error e => some (.error (.wrap "extracting connection data from request: " e))
  | .ok requestConnection =>
    match resolveDidDocFromConnection ctx requestConnection with
    | .error e => some (.error (.wrap "resolve did doc from exchange request connection: " e))
    | .ok requestDidDoc =>
      match getDIDDocAndConnection ctx (getPublicDID options) (getRouterConnections options) with
      | .error e => some (.error (.wrap "get response did doc and connection: " e))
      | .ok (responseDidDoc0, responseConnection) =>
        match recipientKeyF ctx responseDidDoc0 with
        | .error e => some (.error (.wrap "handle inbound request: " e))
        | .ok senderVerKey =>
          let responseDidDocE : Except DexErr DocM :=
            if ctx.doACAPyInterop then
              match ctx.convertPeerToSov responseDidDoc0 with
              | .error e => .error
                  (.wrap "converting my did doc to a sov doc for response message: " e)
              | .ok d => .ok d
            else .ok responseDidDoc0
          match responseDidDocE with
          | .error e => some (.error e)
          | .ok responseDidDoc =>
            match prepareResponse ctx request responseDidDoc responseConnection with
            | none => none
            | some (.error e) => some (.error (.wrap "preparing response: " e))
            | some (.ok response) =>
              let connRec2 :=
                { connRec with
                  TheirDID := requestConnection.DID,
                  MyDID := responseConnection.DID, TheirLabel := request.Label }
              match ctx.createDestination requestDidDoc with
              | .error e => some (.error e)
              | .ok destination =>
                let connRec3 :=
                  if destination.MediaTypeProfiles.length > 0 then
                    { connRec2 with MediaTypeProfiles := destination.MediaTypeProfiles }
                  else connRec2
                some (.ok (.send (.resp response) senderVerKey destination, connRec3))

/-- Function `handleInboundResponse`: build the Ack, load the record by
namespace thread key, verify the connection signature against the
record's invitation recipient key, resolve the verified connection,
and dispatch the Ack.  The `none` results mark the dereferences of a
nil `response.Thread` and a nil `response.ConnectionSignature`. -/
def handleInboundResponse (ctx : Context) (response : Response) :
    Option (Except DexErr (StateAction × Record)) :=
  match response.Thread with
  | none => none
  | some t =>
    let ack : Ack :=
      { msgType := AckMsgType, ID := ctx.uuid, Status := ackStatusOK,
        Thread := { id := t.id, pid := "" } }
    match createNamespaceKey myNSPref ack.Thread.id with
    | .error e => some (.error e)
    | .ok nsThID =>
      match ctx.getConnectionRecordByNSThreadID nsThID with
      | .error e => some (.error (.wrap "get connection record: " e))
      | .ok connRecord =>
        match response.ConnectionSignature with
        | none => none
        | some connSig =>
          match verifySignature ctx.pubKeyFromDIDKey ctx.verify connSig
              (connRecord.RecipientKeys.headD "") with
          | .error e => some (.error e)
          | .ok conn =>
            let connRecord2 := { connRecord with TheirDID := conn.DID }
            match resolveDidDocFromConnection ctx conn with
            | .error e => some (.error
                (.wrap "resolve did doc from exchange response connection: " e))
            | .ok responseDidDoc =>
              match ctx.createDestination responseDidDoc with
              | .error e => some (.error
                  (.wrap "prepare destination from response did doc: " e))
              | .ok destination =>
                match ctx.vdrResolve connRecord2.MyDID with
                | .error e => some (.error (.wrap "fetching did document: " e))
                | .ok doc =>
                  match recipientKeyF ctx doc with
                  | .error e => some (.error (.wrap "handle inbound response: " e))
                  | .ok recKey =>
                      some (.ok (.send (.ack ack) recKey destination, connRecord2))

/-- The `ExecuteInbound` dispatch of all seven state objects, as one
function over the state.  The Go methods return a 4-tuple
`(record, nextState, action, err)` whose error case carries nils; the
`Except` layer models that, with `none` marking a runtime panic
reachable through the handlers.  A `nil` action is `none`; the no-op
closures are `some .noop`. -/
def executeInbound (s : State) (msg : StateMachineMsg) (thid : String)
    (ctx : Context) :
    Option (Except DexErr (Option Record × State × Option StateAction)) :=
  match s with
  | .noOp => some (.error (.msg "cannot execute no-op"))
  | .null => some (.ok (some default, .noOp, none))
  | .invited =>
    if msg.msgType ≠ InvitationMsgType ∧ msg.msgType ≠ oobMsgType then
      some (.error (.msg ("illegal msg type " ++ msg.msgType ++ " for state " ++
        StateIDInvited)))
    else some (.ok (msg.connRecord, .requested, some .noop))
  | .requested =>
    if msg.msgType = oobMsgType then
      match handleInboundOOBInvitation ctx msg thid msg.options with
      | .error e => some (.error (.wrap "failed to handle inbound oob invitation : " e))
      | .ok (action, record) => some (.ok (some record, .noOp, some action))
    else if msg.msgType = InvitationMsgType then
      match msg.decodeInvitation with
      | .error e => some (.error (.wrap "JSON unmarshalling of invitation: " e))
      | .ok invitation =>
        match handleInboundInvitation ctx invitation thid msg.options
            (msg.connRecord.getD default) with
        | .error e => some (.error (.wrap "handle inbound invitation: " e))
        | .ok (action, connRecord) => some (.ok (some connRecord, .noOp, some action))
    else if msg.msgType = RequestMsgType then
      some (.ok (msg.connRecord, .responded, some .noop))
    else
      some (.error (.msg ("illegal msg type " ++ msg.msgType ++ " for state " ++
        StateIDRequested)))
  | .responded =>
    if msg.msgType = RequestMsgType then
      match msg.decodeRequest with
      | .error e => some (.error (.wrap "JSON unmarshalling of request: " e))
      | .ok request =>
        match handleInboundRequest ctx request msg.options
            (msg.connRecord.getD default) with
        | none => none
        | some (.error e) => some (.error (.wrap "handle inbound request: " e))
        | some (.ok (action, connRecord)) =>
            some (.ok (some connRecord, .noOp, some action))
    else if msg.msgType = ResponseMsgType ∨ msg.msgType = CompleteMsgType then
      some (.ok (msg.connRecord, .completed, some .noop))
    else
      some (.error (.msg ("illegal msg type " ++ msg.msgType ++ " for state " ++
        StateIDResponded)))
  | .completed =>
    if msg.msgType = ResponseMsgType then
      match msg.decodeResponse with
      | .error e => some (.error (.wrap "JSON unmarshalling of response: " e))
      | .ok response =>
        match handleInboundResponse ctx response with
        | none => none
        | some (.error e) => some (.error (.wrap "handle inbound response: " e))
        | some (.ok (action, connRecord)) =>
            some (.ok (some connRecord, .noOp, some action))
    else if msg.msgType = AckMsgType then
      some (.ok (msg.connRecord, .noOp, some .noop))
    else if msg.msgType = CompleteMsgType then
      match msg.decodeComplete with
      | .error e => some (.error (.wrap "JSON unmarshalling of complete: " e))
      | .ok _ =>
        match msg.connRecord with
        | none => some (.ok (none, .noOp, some .noop))
        | some connRec => some (.ok (some connRec, .noOp, some .noop))
    else
      some (.error (.msg ("illegal msg type " ++ msg.msgType ++ " for state " ++
        StateIDCompleted)))
  | .abandoned => some (.error (.msg "not implemented"))

/-- A context whose collaborators all answer trivially (store misses,
failing registry); concrete inputs for witnesses are built from it by
structure update. -/
def dummyCtx : Context :=
  { doACAPyInterop := false, now := 0, uuid := "uuid-1",
    getOOBInvitation := fun _ => .error .dataNotFound,
    getInvitation := fun _ => .error .dataNotFound,
    getConnectionRecordByNSThreadID := fun _ => .error .dataNotFound,
    vdrResolve := fun _ => .error (.msg "resolve failed"),
    vdrCreate := fun _ _ _ => .error (.msg "create failed"),
    saveDIDFromDoc := fun _ => .ok (),
    lookupService := fun _ _ => none,
    createDestination := fun _ => .error (.msg "no destination"),
    serviceGetDestination := fun _ => .error (.msg "no destination"),
    didParse := fun _ => .error (.msg "parse failed"),
    getRouterConfig := fun _ => .error (.msg "no router"),
    addKeyToRouter := fun _ _ => .ok (),
    kmsCreateAndExport := fun _ => .error (.msg "kms failed"),
    createKID := fun _ _ => .error (.msg "kid failed"),
    kmsGet := fun _ => .error (.msg "no handle"),
    pubKeyFromDIDKey := fun _ => .error (.msg "bad did key"),
    x509ParseAndRemarshal := fun _ => .error (.msg "bad der"),
    sign := fun _ _ => .error (.msg "sign failed"),
    verify := fun _ _ _ => .error (.msg "invalid signature"),
    attachVerify := fun _ => .ok (),
    attachSign := fun d _ _ => .ok d,
    convertPeerToSov := fun d => .ok d,
    serializeInterop := fun _ => .ok [] }

/-- An inbound message whose decodes all fail (irrelevant to the
branches the witnesses exercise). -/
def dummyMsg : StateMachineMsg :=
  { msgType := "unknown-type", connRecord := none, options := none,
    decodeInvitation := .error (.msg "decode failed"),
    decodeOOB := .error (.msg "decode failed"),
    decodeRequest := .error (.msg "decode failed"),
    decodeResponse := .error (.msg "decode failed"),
    decodeComplete := .error (.msg "decode failed") }

/-- A context with a working signature pipeline: the legacy invitation
store holds recipient key `K0`, the key material is concrete, signing
prepends a zero byte and verification accepts exactly those
signatures under the public key `[7]`. -/
def ctx2 : Context :=
  { dummyCtx with
    now := 1000000000,
    getInvitation := fun _ =>
      .ok { ID := "inv1", DID := "", RecipientKeys := ["K0"],
            ServiceEndpoint := "", RoutingKeys := [] },
    pubKeyFromDIDKey := fun k =>
      if k = "K0" then .ok [7] else .error (.msg "bad did key"),
    createKID := fun _ _ => .ok "kid1",
    kmsGet := fun _ => .ok "kh1",
    sign := fun msg _ => .ok (0 :: msg),
    verify := fun pkv msg sg =>
      if pkv = [7] ∧ sg = 0 :: msg then .ok () else .error (.msg "invalid signature") }

/-- The connection of the spec's signature round-trip scenario. -/
def conn2 : Connection := { DID := "did:peer:abc", DIDDoc := none }

end DidExchange

namespace DidExchange

theorem dispatchCount_le_one (a : StateAction) : dispatchCount a ≤ 1 := by
  cases a <;> simp [dispatchCount]

theorem verifySignature_decoded {pkF : String → Except DexErr (List Nat)}
    {vf : List Nat → List Nat → List Nat → Except DexErr Unit}
    {cs : ConnectionSignature} {key : String} {d : List Nat}
    (hdec : b64Decode (strBytes cs.SignedData) = some d) :
    verifySignature pkF vf cs key =
      if d.length = 0 then .error (.msg "missing or invalid signature data")
      else
        match b64Decode (strBytes cs.Signature) with
        | none => .error (.wrap "decode signature: " (.msg "illegal base64 data"))
        | some signature =>
          match pkF key with
          | .error e => .error
              (.wrap ("verifySignature: failed to parse pubKeyBytes from recipientKeys [" ++
                key ++ "]: ") e)
          | .ok pubKey =>
            match vf pubKey d signature with
            | .error e => .error (.wrap "verify signature: " e)
            | .ok _ =>
              if d.length ≤ timestamplen then
                .error (.msg "missing connection attribute bytes")
              else
                match jsonDecodeConnection (d.drop timestamplen) with
                | none => .error (.wrap "JSON unmarshalling of connection: "
                    (.msg "invalid character"))
                | some conn => .ok conn := by
  rw [verifySignature, hdec]

theorem jsonEncodeConnection_length_ge (c : Connection) :
    2 ≤ (jsonEncodeConnection c).length := by
  obtain ⟨sDID, doc⟩ := c
  rw [jsonEncodeConnection]
  by_cases hd : sDID = ""
  · rw [if_pos hd]
    cases doc with
    | none => simp
    | some d => simp [oDIDDoc, fDIDDoc]
  · rw [if_neg hd]
    cases doc with
    | none => simp [oDID, fDID]
    | some d => simp [oDID, fDID]

/-- C1: the `CanTransitionTo` relation of the seven state objects equals
exactly the declared successor table: Null → {Invited, Requested},
Invited → {Requested}, Requested → {Responded}, Responded →
{Completed}; Completed, Abandoned and NoOp allow no successor. -/
theorem canTransitionTo_eq_successor_table (s s' : State) :
    s.canTransitionTo s' = true ↔
      ((s = .null ∧ (s' = .invited ∨ s' = .requested)) ∨
       (s = .invited ∧ s' = .requested) ∨
       (s = .requested ∧ s' = .responded) ∨
       (s = .responded ∧ s' = .completed)) := by
  cases s <;> cases s' <;> simp [State.canTransitionTo, State.name] <;> decide

/-- C9: for every state object `s`, `stateFromName (s.Name())` succeeds
and returns `s` itself. -/
theorem stateFromName_name (s : State) : stateFromName s.name = .ok s := by
  cases s <;> rfl

/-- C3: the result of `verifySignature` is a function only of the
signature's `SignedData` and `Signature` fields and of the recipient
key argument: two `ConnectionSignature` values differing only in
`SignVerKey` verify identically, so changing `SignVerKey` alone can
never turn a failing verification into a success. -/
theorem verifySignature_ignores_SignVerKey
    (pkF : String → Except DexErr (List Nat))
    (vf : List Nat → List Nat → List Nat → Except DexErr Unit)
    (s1 s2 : ConnectionSignature) (key : String)
    (hsd : s1.SignedData = s2.SignedData) (hsig : s1.Signature = s2.Signature) :
    verifySignature pkF vf s1 key = verifySignature pkF vf s2 key := by
  obtain ⟨t1, sd1, svk1, sg1⟩ := s1
  obtain ⟨t2, sd2, svk2, sg2⟩ := s2
  simp only at hsd hsig
  subst hsd
  subst hsig
  rfl

/-- C3 witness: two concrete signatures differing only in `SignVerKey`
verify identically. -/
theorem verifySignature_ignores_SignVerKey_witness :
    verifySignature (fun _ => .ok [1]) (fun _ _ _ => .ok ())
        ⟨"t", "", "keyA", ""⟩ "k" =
      verifySignature (fun _ => .ok [1]) (fun _ _ _ => .ok ())
        ⟨"t", "", "keyB", ""⟩ "k" :=
  verifySignature_ignores_SignVerKey _ _ _ _ _ rfl rfl

/-- C4 counterexample: for the signature with empty `SignedData`
(whose base64url decoding is the empty byte string, of length 0 ≤ 8),
`verifySignature` fails with `missing or invalid signature data`, not
with `missing connection attribute bytes` as the claim states. -/
theorem verifySignature_empty_sigData_message :
    verifySignature (fun _ => .ok []) (fun _ _ _ => .ok ())
        ⟨"t", "", "k", ""⟩ "key" = .error (.msg "missing or invalid signature data") ∧
    b64Decode (strBytes "") = some [] ∧
    errMessage (.msg "missing or invalid signature data") ≠
      "missing connection attribute bytes" := by
  refine ⟨rfl, rfl, ?_⟩
  decide

/-- C4 (amended): whenever the decoded `SignedData` has length at most
8, `verifySignature` fails; the message is
`missing or invalid signature data` when the decoded data is empty,
and `missing connection attribute bytes` when it is non-empty and the
signature decodes and verifies. -/
theorem verifySignature_short_sigData_fails
    (pkF : String → Except DexErr (List Nat))
    (vf : List Nat → List Nat → List Nat → Except DexErr Unit)
    (sig : ConnectionSignature) (key : String) (d : List Nat)
    (hdec : b64Decode (strBytes sig.SignedData) = some d) (hlen : d.length ≤ 8) :
    (∃ e, verifySignature pkF vf sig key = .error e) ∧
    (d.length = 0 →
      verifySignature pkF vf sig key = .error (.msg "missing or invalid signature data")) ∧
    (0 < d.length → ∀ sg pk, b64Decode (strBytes sig.Signature) = some sg →
      pkF key = .ok pk → vf pk d sg = .ok () →
      verifySignature pkF vf sig key =
        .error (.msg "missing connection attribute bytes")) := by
  have hnotok : ∀ conn, verifySignature pkF vf sig key ≠ .ok conn := by
    intro conn hok
    rw [verifySignature_decoded hdec] at hok
    split at hok
    · exact absurd hok (by simp)
    · split at hok
      · exact absurd hok (by simp)
      · split at hok
        · exact absurd hok (by simp)
        · split at hok
          · exact absurd hok (by simp)
          · split at hok
            · exact absurd hok (by simp)
            · rename_i hcond
              exact absurd hlen hcond
  refine ⟨?_, ?_, ?_⟩
  · cases hres : verifySignature pkF vf sig key with
    | error e => exact ⟨e, rfl⟩
    | ok conn => exact absurd hres (hnotok conn)
  · intro h0
    rw [verifySignature_decoded hdec, if_pos h0]
  · intro h0 sg pk hsg hpk hvf
    rw [verifySignature_decoded hdec, if_neg (by omega)]
    simp only [hsg, hpk, hvf]
    have hlen2 : d.length ≤ timestamplen := hlen
    rw [if_pos hlen2]

/-- C4 (amended) witness: a concrete 1-byte decoded `SignedData` with
a verifying signature fails with `missing connection attribute
bytes`. -/
theorem verifySignature_short_sigData_fails_witness :
    verifySignature (fun _ => .ok [7]) (fun _ _ _ => .ok ())
        ⟨"t", "AA==", "k", ""⟩ "key" =
      .error (.msg "missing connection attribute bytes") :=
  (verifySignature_short_sigData_fails (fun _ => .ok [7]) (fun _ _ _ => .ok ())
      ⟨"t", "AA==", "k", ""⟩ "key" [0] (by rfl) (by decide)).2.2
    (by decide) [] [7] (by rfl) rfl rfl

/-- C6: every inbound message whose type is not accepted by the current
type-dispatching state is rejected with the error
`illegal msg type <type> for state <name>` and no record, next state
or action; in particular the Invited state given a Response yields
exactly `illegal msg type response for state invited`. -/
theorem executeInbound_illegal_msg_type
    (msg : StateMachineMsg) (thid : String) (ctx : Context) :
    ((msg.msgType ≠ InvitationMsgType ∧ msg.msgType ≠ oobMsgType) →
      executeInbound .invited msg thid ctx =
        some (.error (.msg ("illegal msg type " ++ msg.msgType ++
          " for state " ++ StateIDInvited)))) ∧
    ((msg.msgType ≠ oobMsgType ∧ msg.msgType ≠ InvitationMsgType ∧
        msg.msgType ≠ RequestMsgType) →
      executeInbound .requested msg thid ctx =
        some (.error (.msg ("illegal msg type " ++ msg.msgType ++
          " for state " ++ StateIDRequested)))) ∧
    ((msg.msgType ≠ RequestMsgType ∧ msg.msgType ≠ ResponseMsgType ∧
        msg.msgType ≠ CompleteMsgType) →
      executeInbound .responded msg thid ctx =
        some (.error (.msg ("illegal msg type " ++ msg.msgType ++
          " for state " ++ StateIDResponded)))) ∧
    ((msg.msgType ≠ ResponseMsgType ∧ msg.msgType ≠ AckMsgType ∧
        msg.msgType ≠ CompleteMsgType) →
      executeInbound .completed msg thid ctx =
        some (.error (.msg ("illegal msg type " ++ msg.msgType ++
          " for state " ++ StateIDCompleted)))) ∧
    (msg.msgType = ResponseMsgType →
      executeInbound .invited msg thid ctx =
        some (.error (.msg "illegal msg type response for state invited"))) := by
  refine ⟨?_, ?_, ?_, ?_, ?_⟩
  · intro h
    rw [executeInbound, if_pos h]
  · intro h
    rw [executeInbound, if_neg (by simp [h.1]), if_neg (by simp [h.2.1]),
      if_neg (by simp [h.2.2])]
  · intro h
    rw [executeInbound, if_neg (by simp [h.1]),
      if_neg (by rintro (hc | hc) <;> [exact h.2.1 hc; exact h.2.2 hc])]
  · intro h
    rw [executeInbound, if_neg (by simp [h.1]), if_neg (by simp [h.2.1]),
      if_neg (by simp [h.2.2])]
  · intro h
    rw [executeInbound, if_pos (by rw [h]; exact ⟨by decide, by decide⟩)]
    rw [h]
    rfl

/-- C6 witness: the concrete Invited-state rejection of a Response. -/
theorem executeInbound_illegal_msg_type_witness :
    executeInbound .invited { dummyMsg with msgType := ResponseMsgType } "t" dummyCtx =
      some (.error (.msg "illegal msg type response for state invited")) :=
  (executeInbound_illegal_msg_type
    { dummyMsg with msgType := ResponseMsgType } "t" dummyCtx).2.2.2.2 rfl

/-- C7 counterexample: the Null state's successful `ExecuteInbound`
returns an absent (nil) action, not a no-op action, refuting the claim
that the zero-dispatch case is always a callable no-op. -/
theorem null_executeInbound_action_absent :
    executeInbound .null dummyMsg "t" dummyCtx =
      some (.ok (some default, .noOp, none)) := rfl

/-- C7 (amended): every successful `ExecuteInbound` returns an action
performing at most one outbound dispatch; in every state except Null
the zero-dispatch case is a present no-op action, while Null returns
an absent (nil) action. -/
theorem executeInbound_at_most_one_dispatch
    (s : State) (msg : StateMachineMsg) (thid : String) (ctx : Context)
    (r : Option Record) (ns : State) (act : Option StateAction)
    (h : executeInbound s msg thid ctx = some (.ok (r, ns, act))) :
    (s = .null → act = none) ∧
    (s ≠ .null → ∃ a, act = some a ∧ dispatchCount a ≤ 1) := by
  have extract : ∀ (A : Option Record) (B : State) (C : Option StateAction),
      some (Except.ok (A, B, C)) =
        some (Except.ok (r, ns, act) : Except DexErr (Option Record × State × Option StateAction)) →
      C = act := by
    intro A B C hC
    obtain ⟨-, hrest⟩ := Prod.mk.inj (Except.ok.inj (Option.some.inj hC))
    exact (Prod.mk.inj hrest).2
  cases s with
  | noOp => simp [executeInbound] at h
  | null =>
    rw [executeInbound] at h
    have hact := extract _ _ _ h
    exact ⟨fun _ => hact.symm, fun hne => absurd rfl hne⟩
  | invited =>
    rw [executeInbound] at h
    split at h
    · simp at h
    · have hact := extract _ _ _ h
      exact ⟨fun hnl => (nomatch hnl), fun _ => ⟨_, ⟨hact.symm, dispatchCount_le_one _⟩⟩⟩
  | requested =>
    rw [executeInbound] at h
    split at h
    · split at h
      · simp at h
      · have hact := extract _ _ _ h
        exact ⟨fun hnl => (nomatch hnl), fun _ => ⟨_, ⟨hact.symm, dispatchCount_le_one _⟩⟩⟩
    · split at h
      · split at h
        · simp at h
        · split at h
          · simp at h
          · have hact := extract _ _ _ h
            exact ⟨fun hnl => (nomatch hnl), fun _ => ⟨_, ⟨hact.symm, dispatchCount_le_one _⟩⟩⟩
      · split at h
        · have hact := extract _ _ _ h
          exact ⟨fun hnl => (nomatch hnl), fun _ => ⟨_, ⟨hact.symm, dispatchCount_le_one _⟩⟩⟩
        · simp at h
  | responded =>
    rw [executeInbound] at h
    split at h
    · split at h
      · simp at h
      · split at h
        · simp at h
        · simp at h
        · have hact := extract _ _ _ h
          exact ⟨fun hnl => (nomatch hnl), fun _ => ⟨_, ⟨hact.symm, dispatchCount_le_one _⟩⟩⟩
    · split at h
      · have hact := extract _ _ _ h
        exact ⟨fun hnl => (nomatch hnl), fun _ => ⟨_, ⟨hact.symm, dispatchCount_le_one _⟩⟩⟩
      · simp at h
  | completed =>
    rw [executeInbound] at h
    split at h
    · split at h
      · simp at h
      · split at h
        · simp at h
        · simp at h
        · have hact := extract _ _ _ h
          exact ⟨fun hnl => (nomatch hnl), fun _ => ⟨_, ⟨hact.symm, dispatchCount_le_one _⟩⟩⟩
    · split at h
      · have hact := extract _ _ _ h
        exact ⟨fun hnl => (nomatch hnl), fun _ => ⟨_, ⟨hact.symm, dispatchCount_le_one _⟩⟩⟩
      · split at h
        · split at h
          · simp at h
          · split at h
            · have hact := extract _ _ _ h
              exact ⟨fun hnl => (nomatch hnl), fun _ => ⟨_, ⟨hact.symm, dispatchCount_le_one _⟩⟩⟩
            · have hact := extract _ _ _ h
              exact ⟨fun hnl => (nomatch hnl), fun _ => ⟨_, ⟨hact.symm, dispatchCount_le_one _⟩⟩⟩
        · simp at h
  | abandoned => simp [executeInbound] at h


/-- C7 (amended) witness: the Invited state's successful execution of
an Invitation yields a present no-op action (zero dispatches). -/
theorem executeInbound_at_most_one_dispatch_witness :
    ∃ a, (some StateAction.noop : Option StateAction) = some a ∧ dispatchCount a ≤ 1 :=
  (executeInbound_at_most_one_dispatch .invited
      { dummyMsg with msgType := InvitationMsgType } "t" dummyCtx
      none .requested (some .noop) rfl).2 (by decide)

/-- C10: with the interop flag off, `prepareResponse` copies the parent
thread id only under a `request.Thread != nil` guard but then
evaluates `request.Thread.PID` unconditionally, so it panics (nil
dereference, modelled as `none`) exactly on requests with an absent
thread, and is total on the others; `handleInboundRequest` therefore
panics under the same condition once its earlier steps succeed. -/
theorem prepareResponse_nil_thread_panics
    (ctx : Context) (request : Request) (doc : DocM) (conn : Connection)
    (hinterop : ctx.doACAPyInterop = false) :
    (request.Thread = none → prepareResponse ctx request doc conn = none) ∧
    (∀ t, request.Thread = some t →
      ∃ r, prepareResponse ctx request doc conn = some r) ∧
    (request.Thread = none →
      ∀ options connRec reqConn reqDoc myDoc myConn senderKey,
        getRequestConnection request = .ok reqConn →
        resolveDidDocFromConnection ctx reqConn = .ok reqDoc →
        getDIDDocAndConnection ctx (getPublicDID options)
          (getRouterConnections options) = .ok (myDoc, myConn) →
        recipientKeyF ctx myDoc = .ok senderKey →
        handleInboundRequest ctx request options connRec = none) := by
  have hprep : ∀ (d2 : DocM) (c2 : Connection), request.Thread = none →
      prepareResponse ctx request d2 c2 = none := by
    intro d2 c2 hthread
    rw [prepareResponse, hthread]
    simp [hinterop]
  refine ⟨hprep doc conn, ?_, ?_⟩
  · intro t ht
    rw [prepareResponse, ht]
    simp only [hinterop, Bool.false_eq_true, if_false]
    exact ⟨_, rfl⟩
  · intro hthread options connRec reqConn reqDoc myDoc myConn senderKey
      hreq hres hdoc hkey
    rw [handleInboundRequest]
    simp only [hreq, hres, hdoc, hkey, hinterop, Bool.false_eq_true, if_false]
    simp only [hprep _ _ hthread]

/-- C10 witness: a concrete nil-thread request panics in the
non-interop `prepareResponse`, and a request with a thread does not. -/
theorem prepareResponse_nil_thread_panics_witness :
    prepareResponse dummyCtx
      { msgType := "request", ID := "r1", Label := "", Connection := none,
        Thread := none, DocAttach := none } ⟨"", [], [], []⟩ conn2 = none :=
  (prepareResponse_nil_thread_panics dummyCtx
    { msgType := "request", ID := "r1", Label := "", Connection := none,
      Thread := none, DocAttach := none } ⟨"", [], [], []⟩ conn2 rfl).1 rfl

/-- C5: resolution order of `getVerKey`.  (a) An OOB-store hit whose
type matches yields `RecipientKeys[0]` of the extracted service block;
(b) a store miss (`ErrDataNotFound`) or a type mismatch surfaces the
`errVerKeyNotFound` sentinel; under that sentinel the fallback (c)
synthesises `Invitation{ID, DID := id}` when the id starts with
`did:` and returns the first did-communication destination recipient
key of the resolved DID, (d) otherwise loads the legacy invitation
and resolves its DID the same way when non-empty, (e) or returns
`invitation.RecipientKeys[0]` when empty; (f) any other OOB-lookup
error aborts `getVerKey` with an error. -/
theorem getVerKey_resolution (ctx : Context) (invitationID : String) :
    (∀ inv svc, ctx.getOOBInvitation invitationID = .ok inv →
      inv.msgType = oobMsgType →
      getServiceBlock ctx inv = .ok svc →
      getVerKey ctx invitationID = .ok (svc.recipientKeys.headD "")) ∧
    (((∃ e, ctx.getOOBInvitation invitationID = .error e ∧
        errorIs e .dataNotFound = true) ∨
      (∃ inv, ctx.getOOBInvitation invitationID = .ok inv ∧
        inv.msgType ≠ oobMsgType)) →
      getVerKeyFromOOBInvitation ctx invitationID = .error .verKeyNotFound) ∧
    (∀ doc dest,
      getVerKeyFromOOBInvitation ctx invitationID = .error .verKeyNotFound →
      isDID invitationID = true →
      ctx.vdrResolve invitationID = .ok doc →
      ctx.createDestination doc = .ok dest →
      getVerKey ctx invitationID = .ok (dest.RecipientKeys.headD "")) ∧
    (∀ inv2 doc dest,
      getVerKeyFromOOBInvitation ctx invitationID = .error .verKeyNotFound →
      isDID invitationID = false →
      ctx.getInvitation invitationID = .ok inv2 →
      inv2.DID ≠ "" →
      ctx.vdrResolve inv2.DID = .ok doc →
      ctx.createDestination doc = .ok dest →
      getVerKey ctx invitationID = .ok (dest.RecipientKeys.headD "")) ∧
    (∀ inv2,
      getVerKeyFromOOBInvitation ctx invitationID = .error .verKeyNotFound →
      isDID invitationID = false →
      ctx.getInvitation invitationID = .ok inv2 →
      inv2.DID = "" →
      getVerKey ctx invitationID = .ok (inv2.RecipientKeys.headD "")) ∧
    (∀ e, ctx.getOOBInvitation invitationID = .error e →
      errorIs e .dataNotFound = false →
      errorIs e .verKeyNotFound = false →
      ∃ e2, getVerKey ctx invitationID = .error e2) := by
  refine ⟨?_, ?_, ?_, ?_, ?_, ?_⟩
  · intro inv svc hinv htype hsvc
    have hOOB : getVerKeyFromOOBInvitation ctx invitationID =
        .ok (svc.recipientKeys.headD "") := by
      rw [getVerKeyFromOOBInvitation]
      simp only [hinv, htype]
      rw [if_neg (by simp)]
      rw [resolveVerKey]
      simp only [hsvc]
    rw [getVerKey]
    simp only [hOOB]
  · intro hmiss
    rw [getVerKeyFromOOBInvitation]
    rcases hmiss with ⟨e, herr, hse⟩ | ⟨inv, hok, hne⟩
    · simp only [herr, hse]
      simp
    · simp only [hok]
      rw [if_pos hne]
  · intro doc dest hS hdid hres hdest
    have hne : invitationID ≠ "" := by
      intro hc
      rw [hc] at hdid
      exact absurd hdid (by decide)
    rw [getVerKey]
    simp only [hS]
    rw [if_neg (by decide)]
    simp only [hdid, if_true]
    rw [getInvitationRecipientKey]
    simp only
    rw [if_pos hne]
    simp only [hres]
    rw [recipientKeyF]
    simp only [hdest]
  · intro inv2 doc dest hS hdid hinv2 hne hres hdest
    rw [getVerKey]
    simp only [hS]
    rw [if_neg (by decide)]
    simp only [hdid, Bool.false_eq_true, if_false, hinv2]
    rw [getInvitationRecipientKey, if_pos hne]
    simp only [hres]
    rw [recipientKeyF]
    simp only [hdest]
  · intro inv2 hS hdid hinv2 hempty
    rw [getVerKey]
    simp only [hS]
    rw [if_neg (by decide)]
    simp only [hdid, Bool.false_eq_true, if_false, hinv2]
    rw [getInvitationRecipientKey, if_neg (by simp [hempty])]
  · intro e herr hnotfound hnotvk
    have hOOB : getVerKeyFromOOBInvitation ctx invitationID =
        .error (.wrap "failed to load oob invitation: " e) := by
      rw [getVerKeyFromOOBInvitation]
      simp only [herr, hnotfound]
      rw [if_neg (by simp [hnotfound])]
    have hcond : errorIs (DexErr.wrap "failed to load oob invitation: " e)
        DexErr.verKeyNotFound = false := by
      simp only [errorIs]
      exact hnotvk
    rw [getVerKey]
    simp only [hOOB]
    rw [if_pos hcond]
    exact ⟨_, rfl⟩

/-- C5 witness: the legacy-store fallback on a sentinel miss yields the
stored invitation's first recipient key. -/
theorem getVerKey_resolution_witness :
    getVerKey ctx2 "inv1" = .ok "K0" :=
  (getVerKey_resolution ctx2 "inv1").2.2.2.2.1
    { ID := "inv1", DID := "", RecipientKeys := ["K0"],
      ServiceEndpoint := "", RoutingKeys := [] }
    (by rfl) (by decide) rfl rfl

theorem b64Encode_lt_55296 (l : List Nat) : ∀ ch ∈ b64Encode l, ch < 55296 := by
  intro ch hch
  have := b64Encode_lt l ch hch
  omega

/-- C2: the connection-signature round trip.  When the crypto
collaborator's verifier accepts exactly the signatures its signer
produces over the same bytes under the key `getVerKey` resolves,
`verifySignature` applied to `prepareConnectionSignature`'s output
with the invitation recipient key succeeds and returns a connection
structurally equal to the input, and the decoded `SignedData` is
strictly longer than 8 bytes. -/
theorem prepareConnectionSignature_roundtrip
    (ctx : Context) (c : Connection) (invitationID K : String)
    (pk : List Nat) (kid : String) (kh : KeyHandle) (cs : ConnectionSignature)
    (hB : ∀ b ∈ jsonEncodeConnection c, b < 256)
    (hKey : getVerKey ctx invitationID = .ok K)
    (hPk : ctx.pubKeyFromDIDKey K = .ok pk)
    (hKid : ctx.createKID pk .ED25519 = .ok kid)
    (hKh : ctx.kmsGet kid = .ok kh)
    (hCoh : ∀ msg sg, ctx.verify pk msg sg = .ok () ↔ ctx.sign msg kh = .ok sg)
    (hSB : ∀ sg, ctx.sign (beBytes timestamplen ctx.now ++ jsonEncodeConnection c) kh =
      .ok sg → ∀ b ∈ sg, b < 256)
    (hPrep : prepareConnectionSignature ctx c invitationID = .ok cs) :
    verifySignature ctx.pubKeyFromDIDKey ctx.verify cs K = .ok c ∧
    ∃ d, b64Decode (strBytes cs.SignedData) = some d ∧ 8 < d.length := by
  rw [prepareConnectionSignature] at hPrep
  simp only [hKey, hPk, hKid, hKh] at hPrep
  have hdlt : ∀ b ∈ beBytes timestamplen ctx.now ++ jsonEncodeConnection c, b < 256 := by
    intro b hb
    rcases List.mem_append.mp hb with hb | hb
    · exact beBytes_lt _ _ b hb
    · exact hB b hb
  cases hs : ctx.sign (beBytes timestamplen ctx.now ++ jsonEncodeConnection c) kh with
  | error e =>
    rw [hs] at hPrep
    exact absurd hPrep (by simp)
  | ok s =>
    rw [hs] at hPrep
    have hcs := Except.ok.inj hPrep
    subst hcs
    have hdec : b64Decode (strBytes (bytesStr
        (b64Encode (beBytes timestamplen ctx.now ++ jsonEncodeConnection c)))) =
        some (beBytes timestamplen ctx.now ++ jsonEncodeConnection c) := by
      rw [strBytes_bytesStr _ (b64Encode_lt_55296 _), b64Decode_encode _ hdlt]
    have hlen : 8 < (beBytes timestamplen ctx.now ++ jsonEncodeConnection c).length := by
      have := jsonEncodeConnection_length_ge c
      simp only [List.length_append, beBytes_length, timestamplen]
      omega
    constructor
    · rw [verifySignature_decoded hdec]
      rw [if_neg (by omega)]
      have hsigdec : b64Decode (strBytes (bytesStr (b64Encode s))) = some s := by
        rw [strBytes_bytesStr _ (b64Encode_lt_55296 _), b64Decode_encode _ (hSB s hs)]
      simp only [hsigdec, hPk]
      have hv : ctx.verify pk (beBytes timestamplen ctx.now ++ jsonEncodeConnection c) s =
          .ok () := (hCoh _ s).mpr hs
      simp only [hv]
      rw [if_neg (by simp only [timestamplen] at hlen ⊢; omega)]
      have hdrop : (beBytes timestamplen ctx.now ++ jsonEncodeConnection c).drop
          timestamplen = jsonEncodeConnection c :=
        List.drop_left' (beBytes_length _ _)
      rw [hdrop, jsonDecodeConnection_encode]
    · exact ⟨_, hdec, hlen⟩

/-- C2 witness: the concrete round trip in `ctx2` (legacy invitation
key `K0`, signer prepending a zero byte, verifier accepting exactly
those signatures). -/
theorem prepareConnectionSignature_roundtrip_witness :
    ∃ cs, prepareConnectionSignature ctx2 conn2 "inv1" = .ok cs ∧
      verifySignature ctx2.pubKeyFromDIDKey ctx2.verify cs "K0" = .ok conn2 ∧
      ∃ d, b64Decode (strBytes cs.SignedData) = some d ∧ 8 < d.length := by
  have hCoh : ∀ msg sg, ctx2.verify [7] msg sg = .ok () ↔ ctx2.sign msg "kh1" = .ok sg := by
    intro msg sg
    show (if [7] = [7] ∧ sg = 0 :: msg then Except.ok () else
        Except.error (DexErr.msg "invalid signature")) = Except.ok () ↔
      Except.ok (0 :: msg) = Except.ok sg
    by_cases hsg : sg = 0 :: msg
    · subst hsg
      simp
    · rw [if_neg (by simp [hsg])]
      constructor
      · intro hc
        exact absurd hc (by simp)
      · intro hc
        exact absurd (Except.ok.inj hc).symm hsg
  have h := prepareConnectionSignature_roundtrip ctx2 conn2 "inv1" "K0" [7] "kid1" "kh1"
    _ (by decide) (by rfl) (by rfl) (by rfl) (by rfl) hCoh
    (by
      intro sg hs bb hbb
      have hsg := Except.ok.inj hs
      rw [← hsg] at hbb
      revert bb hbb
      decide)
    rfl
  exact ⟨_, rfl, h.1, h.2⟩

/-- C8: `prepareConnectionSignature` encodes `SignedData` as base64url
of the 8-byte big-endian UNIX-seconds timestamp followed by the JSON
of the connection; concretely, signing `{DID: did:peer:abc}` at
t = 1000000000 yields a `SignedData` whose first 8 decoded bytes are
`00 00 00 00 3B 9A CA 00`, and verification with the same key
recovers the same connection. -/
theorem prepareConnectionSignature_timestamp :
    (∀ (ctx : Context) (c : Connection) (invitationID : String)
        (cs : ConnectionSignature),
      prepareConnectionSignature ctx c invitationID = .ok cs →
      (∀ b ∈ jsonEncodeConnection c, b < 256) →
      b64Decode (strBytes cs.SignedData) =
        some (beBytes timestamplen ctx.now ++ jsonEncodeConnection c)) ∧
    (∃ cs, prepareConnectionSignature ctx2 conn2 "inv1" = .ok cs ∧
      (b64Decode (strBytes cs.SignedData)).map (List.take 8) =
        some [0x00, 0x00, 0x00, 0x00, 0x3B, 0x9A, 0xCA, 0x00] ∧
      verifySignature ctx2.pubKeyFromDIDKey ctx2.verify cs "K0" = .ok conn2) := by
  constructor
  · intro ctx c invitationID cs hPrep hB
    rw [prepareConnectionSignature] at hPrep
    have hdlt : ∀ b ∈ beBytes timestamplen ctx.now ++ jsonEncodeConnection c, b < 256 := by
      intro b hb
      rcases List.mem_append.mp hb with hb | hb
      · exact beBytes_lt _ _ b hb
      · exact hB b hb
    cases hk : getVerKey ctx invitationID with
    | error e => rw [hk] at hPrep; exact absurd hPrep (by simp)
    | ok K =>
      rw [hk] at hPrep
      simp only at hPrep
      cases hpk : ctx.pubKeyFromDIDKey K with
      | error e => rw [hpk] at hPrep; exact absurd hPrep (by simp)
      | ok pk =>
        rw [hpk] at hPrep
        simp only at hPrep
        cases hkid : ctx.createKID pk .ED25519 with
        | error e => rw [hkid] at hPrep; exact absurd hPrep (by simp)
        | ok kid =>
          rw [hkid] at hPrep
          simp only at hPrep
          cases hkh : ctx.kmsGet kid with
          | error e => rw [hkh] at hPrep; exact absurd hPrep (by simp)
          | ok kh =>
            rw [hkh] at hPrep
            simp only at hPrep
            cases hs : ctx.sign (beBytes timestamplen ctx.now ++
                jsonEncodeConnection c) kh with
            | error e => rw [hs] at hPrep; exact absurd hPrep (by simp)
            | ok s =>
              rw [hs] at hPrep
              have hcs := Except.ok.inj hPrep
              subst hcs
              rw [strBytes_bytesStr _ (b64Encode_lt_55296 _), b64Decode_encode _ hdlt]
  · refine ⟨_, rfl, by decide, by decide⟩

/-- C8 witness: the general decomposition applied at the concrete
scenario input. -/
theorem prepareConnectionSignature_timestamp_witness :
    ∃ cs, prepareConnectionSignature ctx2 conn2 "inv1" = .ok cs ∧
      b64Decode (strBytes cs.SignedData) =
        some (beBytes timestamplen ctx2.now ++ jsonEncodeConnection conn2) := by
  refine ⟨_, rfl, ?_⟩
  exact prepareConnectionSignature_timestamp.1 ctx2 conn2 "inv1" _ rfl (by decide)

end DidExchange
